import Mathlib

set_option maxRecDepth 8000

/-!
Verification development for the Tamil semantic analyzer repository.

The Python sources are embedded shallowly: strings become `List Char`,
floats become `ℚ`, dictionaries preserving insertion order become
association lists, and the effectful collaborator (the external Gemini
model) becomes an explicit outcome parameter.  Each embedded definition
mirrors one Python function and keeps its name where Lean allows it.
-/

namespace TamilAnalyzer

/-- ASCII lowercasing; models Python `str.lower` on the character material
the analyzer works with (Tamil, Devanagari and ASCII; only ASCII letters
are cased there). -/
def asciiLower (c : Char) : Char :=
  if 65 ≤ c.toNat ∧ c.toNat ≤ 90 then Char.ofNat (c.toNat + 32) else c

/-- Python whitespace as used by `str.strip`, `str.split` and `\s`
(ASCII whitespace; the exotic Unicode spaces play no role here). -/
def isPyWS (c : Char) : Bool :=
  c = ' ' ∨ c = '\t' ∨ c = '\n' ∨ c = '\r' ∨ c = '\x0b' ∨ c = '\x0c'

/-- Python `str.strip()`. -/
def pyStrip (l : List Char) : List Char :=
  ((l.dropWhile isPyWS).reverse.dropWhile isPyWS).reverse

/-- Helper for splitting a string on runs of separator characters,
dropping empty pieces; `cur` is the current piece reversed. -/
def splitRunsAux (p : Char → Bool) : List Char → List Char → List (List Char)
  | [], cur => if cur.isEmpty then [] else [cur.reverse]
  | c :: rest, cur =>
    if p c then
      (if cur.isEmpty then splitRunsAux p rest [] else cur.reverse :: splitRunsAux p rest [])
    else splitRunsAux p rest (c :: cur)

/-- Split on maximal runs of characters satisfying `p`, no empty pieces.
With `p := isPyWS` this is Python `str.split()`; with a punctuation class
it models `re.split(r[class]+, text)` followed by dropping blank pieces. -/
def splitRuns (p : Char → Bool) (l : List Char) : List (List Char) :=
  splitRunsAux p l []

/-- Python `text.split()` used by `calculate_similarity` for word overlap. -/
def splitWS (l : List Char) : List (List Char) :=
  splitRuns isPyWS l

/-- Python substring containment `sub in hay`. -/
def hasSub (hay sub : List Char) : Bool :=
  (List.range (hay.length + 1)).any (fun i => (hay.drop i).take sub.length == sub)

/-!
Embedding of `difflib.SequenceMatcher` (CPython) with `isjunk=None` on
short strings (no autojunk: it only fires for `len(b) ≥ 200`, and the
junk machinery is empty then).  `find_longest_match` is the dynamic
program over `j2len` with difflib's exact update order and tie-breaking;
the two non-junk extension loops are included as fueled loops.
-/

/-- The indices `j ∈ [blo, bhi)` with `b[j] = c`, ascending: difflib's
`b2j.get(a[i])` combined with the loop's `continue`/`break` filtering. -/
def occIdx (b : List Char) (c : Char) (blo bhi : Nat) : List Nat :=
  (List.range b.length).filter
    (fun j => decide (blo ≤ j) && decide (j < bhi) && (b[j]? == some c))

/-- State of difflib's `find_longest_match` scan: the `j2len` map of the
previous row and the best block found so far. -/
structure FLMState where
  j2len : Nat → Nat
  besti : Nat
  bestj : Nat
  bestsize : Nat

/-- One iteration of the outer `for i in range(alo, ahi)` loop of
`find_longest_match`: build `newj2len` from the old `j2len` and update
the best block on strict improvement (`k > bestsize`), scanning the
matching `j` in ascending order.  Python's `j2len.get(j-1, 0)` at `j = 0`
reads index `-1`, hence 0, which the `if j = 0` branch reproduces. -/
def flmStep (i : Nat) (c : Char) (b : List Char) (blo bhi : Nat) (s : FLMState) : FLMState :=
  (occIdx b c blo bhi).foldl
    (fun t j =>
      let k := (if j = 0 then 0 else s.j2len (j - 1)) + 1
      { j2len := fun x => if x = j then k else t.j2len x
        besti := if k > t.bestsize then i + 1 - k else t.besti
        bestj := if k > t.bestsize then j + 1 - k else t.bestj
        bestsize := if k > t.bestsize then k else t.bestsize })
    { j2len := fun _ => 0
      besti := s.besti
      bestj := s.bestj
      bestsize := s.bestsize }

/-- The full dynamic-programming scan of `find_longest_match`. -/
def flmScan (a b : List Char) (alo ahi blo bhi : Nat) : FLMState :=
  (List.range' alo (ahi - alo)).foldl
    (fun s i =>
      match a[i]? with
      | some c => flmStep i c b blo bhi s
      | none => s)
    { j2len := fun _ => 0, besti := alo, bestj := blo, bestsize := 0 }

/-- difflib's first extension loop: grow the best block backwards over
equal characters (junk-free configuration).  Fueled by `besti`. -/
def extendBack (a b : List Char) (alo blo : Nat) : Nat → Nat × Nat × Nat → Nat × Nat × Nat
  | 0, t => t
  | fuel + 1, (bi, bj, bk) =>
    if alo < bi ∧ blo < bj ∧ a[bi - 1]? = b[bj - 1]? ∧ (a[bi - 1]?).isSome
    then extendBack a b alo blo fuel (bi - 1, bj - 1, bk + 1)
    else (bi, bj, bk)

/-- difflib's second extension loop: grow the best block forwards over
equal characters.  Fueled by `ahi - (besti + bestsize)`. -/
def extendFwd (a b : List Char) (ahi bhi : Nat) : Nat → Nat × Nat × Nat → Nat × Nat × Nat
  | 0, t => t
  | fuel + 1, (bi, bj, bk) =>
    if bi + bk < ahi ∧ bj + bk < bhi ∧ a[bi + bk]? = b[bj + bk]? ∧ (a[bi + bk]?).isSome
    then extendFwd a b ahi bhi fuel (bi, bj, bk + 1)
    else (bi, bj, bk)

/-- `SequenceMatcher.find_longest_match(alo, ahi, blo, bhi)`. -/
def find_longest_match (a b : List Char) (alo ahi blo bhi : Nat) : Nat × Nat × Nat :=
  let s := flmScan a b alo ahi blo bhi
  let t := extendBack a b alo blo s.besti (s.besti, s.bestj, s.bestsize)
  extendFwd a b ahi bhi (ahi - (t.1 + t.2.2)) t

/-- Total size of the matching blocks of `get_matching_blocks` restricted
to the window `[alo, ahi) × [blo, bhi)`: the recursion of difflib's
queue-based traversal, fueled (each recursive window is strictly
shorter on the `a` side, so `a.length + 1` fuel always suffices). -/
def matchingTotal (a b : List Char) : Nat → Nat → Nat → Nat → Nat → Nat
  | 0, _, _, _, _ => 0
  | fuel + 1, alo, ahi, blo, bhi =>
    let m := find_longest_match a b alo ahi blo bhi
    if m.2.2 = 0 then 0
    else
      matchingTotal a b fuel alo m.1 blo m.2.1 + m.2.2 +
        matchingTotal a b fuel (m.1 + m.2.2) ahi (m.2.1 + m.2.2) bhi

/-- `sum(block.size for block in get_matching_blocks())` for whole strings. -/
def seqMatches (a b : List Char) : Nat :=
  matchingTotal a b (a.length + 1) 0 a.length 0 b.length

/-- `SequenceMatcher(None, a, b).ratio()`, i.e. `2*M/(la+lb)` with
difflib's `_calculate_ratio` guard returning 1.0 on two empty strings. -/
def seq_similarity (a b : List Char) : ℚ :=
  if a.length + b.length = 0 then 1
  else (2 * seqMatches a b : ℚ) / ((a.length : ℚ) + (b.length : ℚ))

/-- Method 2 of `calculate_similarity`: Jaccard overlap of the word sets
(`words1`/`words2` are Python sets, hence `Finset`). -/
def word_similarity (t1 t2 : List Char) : ℚ :=
  if (splitWS t1).toFinset = ∅ ∨ (splitWS t2).toFinset = ∅ then 0
  else if 0 < ((splitWS t1).toFinset ∪ (splitWS t2).toFinset).card then
    (((splitWS t1).toFinset ∩ (splitWS t2).toFinset).card : ℚ) /
      (((splitWS t1).toFinset ∪ (splitWS t2).toFinset).card : ℚ)
  else 0

/-- Method 3 of `calculate_similarity`: Jaccard overlap of the character sets. -/
def char_similarity (t1 t2 : List Char) : ℚ :=
  if t1.toFinset = ∅ ∨ t2.toFinset = ∅ then 0
  else if 0 < (t1.toFinset ∪ t2.toFinset).card then
    ((t1.toFinset ∩ t2.toFinset).card : ℚ) / ((t1.toFinset ∪ t2.toFinset).card : ℚ)
  else 0

/-- `KambaramayanamDatabase.calculate_similarity`. -/
def calculate_similarity (t1 t2 : List Char) : ℚ :=
  if t1 = [] ∨ t2 = [] then 0
  else
    seq_similarity t1 t2 * (1 / 2) + word_similarity t1 t2 * (3 / 10) +
      char_similarity t1 t2 * (1 / 5)

/-- Concrete input for the asymmetry analysis of `calculate_similarity`. -/
def tideL : List Char := ['t', 'i', 'd', 'e']

/-- Concrete input for the asymmetry analysis of `calculate_similarity`. -/
def dietL : List Char := ['d', 'i', 'e', 't']

lemma seq_similarity_tide_diet : seq_similarity tideL dietL = 1 / 4 := by
  have hm : seqMatches tideL dietL = 1 := by decide
  have hl1 : tideL.length = 4 := by decide
  have hl2 : dietL.length = 4 := by decide
  unfold seq_similarity
  rw [hm, hl1, hl2, if_neg (by norm_num)]
  norm_num

lemma seq_similarity_diet_tide : seq_similarity dietL tideL = 1 / 2 := by
  have hm : seqMatches dietL tideL = 2 := by decide
  have hl1 : dietL.length = 4 := by decide
  have hl2 : tideL.length = 4 := by decide
  unfold seq_similarity
  rw [hm, hl1, hl2, if_neg (by norm_num)]
  norm_num

lemma word_similarity_tide_diet : word_similarity tideL dietL = 0 := by
  have h1 : ¬((splitWS tideL).toFinset = (∅ : Finset (List Char)) ∨
      (splitWS dietL).toFinset = (∅ : Finset (List Char))) := by decide
  have h2 : ((splitWS tideL).toFinset ∩ (splitWS dietL).toFinset).card = 0 := by decide
  have h3 : ((splitWS tideL).toFinset ∪ (splitWS dietL).toFinset).card = 2 := by decide
  unfold word_similarity
  rw [if_neg h1, h2, h3, if_pos (by norm_num)]
  norm_num

lemma word_similarity_diet_tide : word_similarity dietL tideL = 0 := by
  have h1 : ¬((splitWS dietL).toFinset = (∅ : Finset (List Char)) ∨
      (splitWS tideL).toFinset = (∅ : Finset (List Char))) := by decide
  have h2 : ((splitWS dietL).toFinset ∩ (splitWS tideL).toFinset).card = 0 := by decide
  have h3 : ((splitWS dietL).toFinset ∪ (splitWS tideL).toFinset).card = 2 := by decide
  unfold word_similarity
  rw [if_neg h1, h2, h3, if_pos (by norm_num)]
  norm_num

lemma char_similarity_tide_diet : char_similarity tideL dietL = 1 := by
  have h1 : ¬(tideL.toFinset = (∅ : Finset Char) ∨ dietL.toFinset = (∅ : Finset Char)) := by
    decide
  have h2 : (tideL.toFinset ∩ dietL.toFinset).card = 4 := by decide
  have h3 : (tideL.toFinset ∪ dietL.toFinset).card = 4 := by decide
  unfold char_similarity
  rw [if_neg h1, h2, h3, if_pos (by norm_num)]
  norm_num

lemma char_similarity_diet_tide : char_similarity dietL tideL = 1 := by
  have h1 : ¬(dietL.toFinset = (∅ : Finset Char) ∨ tideL.toFinset = (∅ : Finset Char)) := by
    decide
  have h2 : (dietL.toFinset ∩ tideL.toFinset).card = 4 := by decide
  have h3 : (dietL.toFinset ∪ tideL.toFinset).card = 4 := by decide
  unfold char_similarity
  rw [if_neg h1, h2, h3, if_pos (by norm_num)]
  norm_num

lemma calcSim_tide_diet : calculate_similarity tideL dietL = 13 / 40 := by
  unfold calculate_similarity
  rw [if_neg (by decide), seq_similarity_tide_diet, word_similarity_tide_diet,
    char_similarity_tide_diet]
  norm_num

lemma calcSim_diet_tide : calculate_similarity dietL tideL = 9 / 20 := by
  unfold calculate_similarity
  rw [if_neg (by decide), seq_similarity_diet_tide, word_similarity_diet_tide,
    char_similarity_diet_tide]
  norm_num

/-!
Embedding of `KambaramayanamDatabase.clean_text` and
`find_matching_verses`.  The verse corpus (rows of the SQL `LEFT JOIN`
between `kambaramayanam_verses` and `verse_lines`) is data, so
`find_matching_verses` is parametrised by a list of verses, each carrying
its stored lines; a verse with no lines yields one joined row with a null
line, a verse with lines yields one row per line.
-/

/-- One step of collapsing whitespace runs to single spaces
(`re.sub(r"\s+", " ", ...)`); the flag records whether the previous
character was whitespace. -/
def collapseWSAux : Bool → List Char → List Char
  | _, [] => []
  | prev, c :: rest =>
    if isPyWS c then
      (if prev then collapseWSAux true rest else ' ' :: collapseWSAux true rest)
    else c :: collapseWSAux false rest

/-- Characters kept by `clean_text`: the Tamil block `஀-௿`,
the space, and ASCII letters. -/
def keepChar (c : Char) : Bool :=
  (0xB80 ≤ c.toNat ∧ c.toNat ≤ 0xBFF) ∨ c = ' ' ∨
    (97 ≤ c.toNat ∧ c.toNat ≤ 122) ∨ (65 ≤ c.toNat ∧ c.toNat ≤ 90)

/-- `KambaramayanamDatabase.clean_text`: strip, collapse whitespace,
drop punctuation, lowercase. -/
def clean_text (t : List Char) : List Char :=
  ((collapseWSAux false (pyStrip t)).filter keepChar).map asciiLower

/-- A corpus verse together with its stored lines (`verse_lines` rows). -/
structure Verse where
  verse_id : Nat
  original_text : List Char
  lines : List (List Char)

/-- One entry of the list returned by `find_matching_verses` (the fields
the matching logic computes; the metadata columns are carried by
`verse_id`). -/
structure MatchEntry where
  verse_id : Nat
  similarity_score : ℚ
  match_type : String
  line_number : Option Nat

/-- The joined rows contributed by one verse: `(verse, null)` if it has
no lines, else one row per line, numbered from 1. -/
def rowsOf (v : Verse) : List (Verse × Option (Nat × List Char)) :=
  match v.lines with
  | [] => [(v, none)]
  | l :: rest => ((l :: rest).enum).map (fun p => (v, some (p.1 + 1, p.2)))

/-- The `line_similarity` computed for a joined row: 0 for a null or
empty line (`if line_text:`), else the similarity of the cleaned line. -/
def lineSimilarity (input : List Char) (line : Option (Nat × List Char)) : ℚ :=
  match line with
  | none => 0
  | some p => if p.2 = [] then 0 else calculate_similarity input (clean_text p.2)

/-- The `best_similarity` of a joined row: the larger of the full-verse
similarity and the line similarity. -/
def rowScore (input : List Char) (r : Verse × Option (Nat × List Char)) : ℚ :=
  max (calculate_similarity input (clean_text r.1.original_text)) (lineSimilarity input r.2)

/-- The match dictionary built for one joined row, or nothing when the
row's best similarity is below the threshold. -/
def rowEntry (input : List Char) (θ : ℚ) (r : Verse × Option (Nat × List Char)) :
    Option MatchEntry :=
  if θ ≤ rowScore input r then
    some
      { verse_id := r.1.verse_id
        similarity_score := rowScore input r
        match_type :=
          if calculate_similarity input (clean_text r.1.original_text) <
              lineSimilarity input r.2 then "line" else "verse"
        line_number :=
          if calculate_similarity input (clean_text r.1.original_text) <
              lineSimilarity input r.2 then r.2.map Prod.fst else none }
  else none

/-- The raw `matches` list of `find_matching_verses`: every joined row
that clears the threshold, in corpus order. -/
def collectMatches (corpus : List Verse) (input : List Char) (θ : ℚ) : List MatchEntry :=
  ((corpus.map rowsOf).flatten).filterMap (rowEntry input θ)

/-- One step of the `unique_matches` dictionary build: a new verse id is
appended (dict insertion order), an existing one is replaced in place
only by a strictly greater score. -/
def dedupInsert (acc : List MatchEntry) (m : MatchEntry) : List MatchEntry :=
  if acc.any (fun e => e.verse_id == m.verse_id) then
    acc.map (fun e =>
      if e.verse_id = m.verse_id ∧ e.similarity_score < m.similarity_score then m else e)
  else acc ++ [m]

/-- The `unique_matches` dictionary of `find_matching_verses`, as an
insertion-ordered association list keyed by `verse_id`. -/
def dedupMatches (ms : List MatchEntry) : List MatchEntry :=
  ms.foldl dedupInsert []

/-- Python's stable `sort(key=similarity_score, reverse=True)`. -/
def sortMatches (ms : List MatchEntry) : List MatchEntry :=
  ms.mergeSort (fun e1 e2 => decide (e2.similarity_score ≤ e1.similarity_score))

/-- `KambaramayanamDatabase.find_matching_verses` (default threshold 0.6). -/
def find_matching_verses (corpus : List Verse) (text : List Char) (θ : ℚ) : List MatchEntry :=
  if pyStrip text = [] then []
  else sortMatches (dedupMatches (collectMatches corpus (clean_text text) θ))

/-- The best score a verse can contribute over all of its joined rows
(full text and all lines); every returned entry for the verse carries
exactly this score. -/
def verseBestScore (input : List Char) (v : Verse) : ℚ :=
  ((rowsOf v).map (rowScore input)).foldl max 0

/-!
Embedding of `TamilContextAnalyzer.identify_cultural_elements` and
`determine_kambaramayanam_content` (with
`Config.KAMBARAMAYANAM_CONFIDENCE_THRESHOLD = 0.5` as the default
threshold).
-/

/-- The `famous_keywords` dictionary, in insertion order. -/
def famous_keywords : List (String × String) :=
  [("அறம்", "தர்மம், நீதி, நல்லொழுக்கம்"),
   ("இராமன்", "அயோத்தி இளவரசன், மரியாதை புருஷோத்தமன்"),
   ("சீதை", "இராமனின் மனைவி, பொறுமையின் அடையாளம்"),
   ("அனுமன்", "இராமனின் பக்தன், வானர வீரன்"),
   ("ராவணன்", "இலங்கை அரசன், வல்லமை மிக்கவன்"),
   ("கம்பன்", "கம்பராமாயணத்தின் ஆசிரியர், மகாகவி"),
   ("வனவாசம்", "காட்டில் வாழ்வு, துறவு நிலை"),
   ("அயோத்தி", "இராமனின் தலைநகரம், நீதியின் இருப்பிடம்"),
   ("இலங்கை", "ராவணனின் நாடு, செல்வச் செழிப்பின் இடம்")]

/-- The character list scanned by `identify_cultural_elements`. -/
def charactersList : List String :=
  ["இராமன்", "சீதை", "லட்சுமணன்", "அனுமன்", "ராவணன்", "தசரதன்", "கைகேயி",
   "பரதன்", "சத்துருக்னன்"]

/-- The place list scanned by `identify_cultural_elements`. -/
def placesList : List String :=
  ["அயோத்தி", "இலங்கை", "மிதிலை", "கிஷ்கிந்தை", "பஞ்சவடி"]

/-- The concept list scanned by `identify_cultural_elements`. -/
def conceptsList : List String :=
  ["அறம்", "தர்மம்", "பக்தி", "வீரம்", "காதல்", "கடமை", "நீதி"]

/-- The `elements` dictionary built by `identify_cultural_elements`. -/
structure CulturalElements where
  characters : List String
  places : List String
  concepts : List String
  keywords : List (String × String)
  literary_significance : List String

/-- `TamilContextAnalyzer.identify_cultural_elements`. -/
def identify_cultural_elements (text : List Char) : CulturalElements :=
  { keywords := famous_keywords.filter (fun kv => hasSub text kv.1.data)
    characters := charactersList.filter (fun c => hasSub text c.data)
    places := placesList.filter (fun p => hasSub text p.data)
    concepts := conceptsList.filter (fun c => hasSub text c.data)
    literary_significance :=
      (if hasSub text "என்று".data ∨ hasSub text "எனக்".data then ["உரையாடல்"] else []) ++
      (if ["போல", "மாதிரி", "சமம்"].any (fun w => hasSub text w.data) then ["உவமை"] else []) ++
      (if 1 < text.count '\n' then ["பாடல் வடிவம்"] else []) }

/-- `max(match["similarity_score"] for match in verse_matches)` (only
evaluated on a nonempty list in the code). -/
def bestMatchScore : List MatchEntry → ℚ
  | [] => 0
  | m :: rest => rest.foldl (fun acc e => max acc e.similarity_score) m.similarity_score

/-- The `confidence_factors` list of `determine_kambaramayanam_content`:
`(name, score, weight)` triples, appended in program order.  The
`verse_match` factor is present only when the match list is nonempty and
the `literary` factor only when literary markers were found; the
`characters`, `keywords` and `text_length` factors are always present,
even with a zero score. -/
def confidenceFactors (verse_matches : List MatchEntry) (elems : CulturalElements)
    (text : List Char) : List (String × ℚ × ℚ) :=
  (if verse_matches.isEmpty then []
   else [("verse_match", bestMatchScore verse_matches, 1 / 2)]) ++
  [("characters", min ((elems.characters.length : ℚ) * (1 / 10)) (3 / 10), 1 / 5)] ++
  [("keywords", min ((elems.keywords.length : ℚ) * (1 / 20)) (1 / 5), 3 / 20)] ++
  (if elems.literary_significance.isEmpty then []
   else [("literary", min ((elems.literary_significance.length : ℚ) * (1 / 20)) (3 / 20),
     1 / 10)]) ++
  [("text_length", min ((text.length : ℚ) / 200) (1 / 10), 1 / 20)]

/-- `TamilContextAnalyzer.determine_kambaramayanam_content`: weighted
average of the factor scores over the weights of the factors present,
then the inclusive threshold comparison. -/
def determine_kambaramayanam_content (verse_matches : List MatchEntry)
    (elems : CulturalElements) (text : List Char) (threshold : ℚ) : Bool × ℚ :=
  let factors := confidenceFactors verse_matches elems text
  let total_confidence : ℚ := factors.foldl (fun acc f => acc + f.2.1 * f.2.2) 0
  let total_weight : ℚ := factors.foldl (fun acc f => acc + f.2.2) 0
  let final_confidence := if 0 < total_weight then total_confidence / total_weight else 0
  (decide (threshold ≤ final_confidence), final_confidence)

/-- Follows the words of the spec for claim C1, for comparison with the
code: the numerator is the full weighted sum, but the denominator keeps
only the weights of factors with a non-zero contribution, so zero-score
factors do not dilute the average. -/
def specNonzeroOnlyConfidence (verse_matches : List MatchEntry) (elems : CulturalElements)
    (text : List Char) : ℚ :=
  let factors := confidenceFactors verse_matches elems text
  let num : ℚ := factors.foldl (fun acc f => acc + f.2.1 * f.2.2) 0
  let den : ℚ := (factors.filter (fun f => decide (f.2.1 ≠ 0))).foldl (fun acc f => acc + f.2.2) 0
  if 0 < den then num / den else 0

/-!
Embedding of `SemanticSentimentAnalyzer`.  The md5 cache key is modelled
as an injective key (the identity on the input text); the external
collaborator is modelled by an explicit outcome value describing what the
HTTP interaction of `_make_request` did, and the JSON parse of the
response by a parse outcome, since the analysis code only branches on
those summaries.
-/

/-- Word separators of `_basic_semantic_analysis`:
the class of `re.split(r"[\s\.\,\!\?\;\:]+", text)`. -/
def isSemWordSep (c : Char) : Bool :=
  isPyWS c ∨ c = '.' ∨ c = ',' ∨ c = '!' ∨ c = '?' ∨ c = ';' ∨ c = ':'

/-- The `words` list of `_basic_semantic_analysis`: split on the
separator class, strip, drop blanks. -/
def semanticWords (text : List Char) : List (List Char) :=
  ((splitRuns isSemWordSep text).map pyStrip).filter (fun w => !w.isEmpty)

/-- The regex `[அ-ஹ]`: a character in `U+0B85 .. U+0BB9`. -/
def containsTamil (w : List Char) : Bool :=
  w.any (fun c => 0xB85 ≤ c.toNat ∧ c.toNat ≤ 0xBB9)

/-- The `theme_keywords` table of `_extract_basic_themes`. -/
def theme_keywords : List (String × List String) :=
  [("family", ["குடும்பம்", "தாய்", "தந்தை", "மகன்", "மகள்", "சகோதரன்", "சகோதரி"]),
   ("nature", ["மரம்", "நதி", "மலை", "கடல்", "வானம்", "மழை", "காற்று", "சூரியன்"]),
   ("spirituality", ["கடவுள்", "பிரார்த்தனை", "வணக்கம்", "பக்தி", "தர்மம்"]),
   ("society", ["மக்கள்", "நாடு", "கிராமம்", "நகரம்", "சமுதாயம்"])]

/-- `SemanticSentimentAnalyzer._extract_basic_themes`. -/
def extract_basic_themes (text : List Char) : List String :=
  (theme_keywords.filter (fun tk => tk.2.any (fun w => hasSub text w.data))).map Prod.fst

/-- Sentence separators of `_generate_basic_meaning`:
the class of `re.split(r"[\.!?\n]+", text)`. -/
def isSentenceSep (c : Char) : Bool :=
  c = '.' ∨ c = '!' ∨ c = '?' ∨ c = '\n'

/-- The `sentences` list of `_generate_basic_meaning`. -/
def sentencePieces (text : List Char) : List (List Char) :=
  ((splitRuns isSentenceSep text).map pyStrip).filter (fun s => !s.isEmpty)

/-- The `meaning_patterns` dictionary, in insertion order. -/
def meaning_patterns : List (String × String) :=
  [("வணக்கம்", "வணக்கம் என்பது மரியாதையான வாழ்த்து"),
   ("நன்றி", "நன்றி என்பது நன்றி தெரிவிக்கும் சொல்"),
   ("மன்னிக்கவும்", "மன்னிப்பு கேட்கும் சொல்"),
   ("குடும்பம்", "குடும்ப உறவுகளைப் பற்றிய உரை"),
   ("அன்பு", "அன்பு மற்றும் பாசத்தை வெளிப்படுத்தும் உரை"),
   ("கல்வி", "கல்வி மற்றும் கற்றல் பற்றிய உரை"),
   ("நண்பர்", "நட்பு மற்றும் நண்பர்களைப் பற்றிய உரை"),
   ("இன்று", "நாள் மற்றும் நேரத்தைப் பற்றிய குறிப்பு"),
   ("நல்ல", "நேர்மறையான குணங்களை விவரிக்கும் உரை")]

/-- First meaning pattern whose key occurs in the text, if any. -/
def findPattern : List (String × String) → List Char → Option String
  | [], _ => none
  | (k, v) :: rest, text =>
    if hasSub text k.data then some v else findPattern rest text

/-- `SemanticSentimentAnalyzer._generate_basic_meaning` (the
`tamil_words` parameter is accepted but unused, as in the source). -/
def generate_basic_meaning (text : List Char) (words tamil_words : List (List Char)) :
    String :=
  match findPattern meaning_patterns text with
  | some m => m
  | none =>
    let sentences := sentencePieces text
    let themes := extract_basic_themes text
    let pre := "உரையின் தெளிவான விளக்கம்: "
    if words.length ≤ 5 then
      pre ++ "குறுகிய தமிழ் சொற்றொடர்/வாக்கியம். உரை சுருக்கமாக அதன் கருத்தை வெளிப்படுத்துகிறது."
    else if words.length ≤ 20 then
      pre ++ ("இந்த உரை சுருக்கமாக ஒரு எண்ணத்தை விவரிக்கிறது." ++
        (if themes.isEmpty then ""
         else " இது முக்கியமாக " ++ String.intercalate ", " themes ++
           " தொடர்பான கருத்துகளைத் தொடுகிறது.") ++
        (if 2 ≤ sentences.length then " வாக்கியங்களின் ஒழுங்கு தெளிவாக உள்ளது." else ""))
    else
      pre ++ ("இந்த உரை விரிவாக ஒரு கருத்தை விளக்குகிறது." ++
        (if themes.isEmpty then ""
         else " பிரதான தீம்கள்: " ++ String.intercalate ", " themes ++ ".") ++
        (if 3 ≤ sentences.length then
          " மொத்தம் " ++ toString sentences.length ++
            " பகுதி/வாக்கியங்களாக தகவல் படிகட்டாக வழங்கப்பட்டுள்ளது."
         else "") ++
        " உள்ளடக்கத்தின் பொருள், சூழல், நோக்கம் ஆகியவை தொடர்ச்சியாக விளக்கப்பட்டுள்ளன.")

/-- The `semantic_analysis` dictionary.  The optional fields are the keys
only ever added by the Gemini overlay. -/
structure SemanticAnalysis where
  word_count : Nat
  tamil_word_count : Nat
  character_count : Nat
  language_detected : String
  text_complexity : String
  key_themes : List String
  semantic_density : ℚ
  meaning : String
  source_book : Option String := none
  chapter_section : Option String := none
  verse_number : Option String := none
  explanation : Option String := none
  theme : Option String := none
  themes : Option (List String) := none
  cultural_context : Option String := none

/-- `SemanticSentimentAnalyzer._basic_semantic_analysis`. -/
def basic_semantic_analysis (text : List Char) : SemanticAnalysis :=
  let words := semanticWords text
  let tamil_words := words.filter containsTamil
  { word_count := words.length
    tamil_word_count := tamil_words.length
    character_count := text.length
    language_detected := if words.length < 2 * tamil_words.length then "tamil" else "mixed"
    text_complexity :=
      if words.length < 10 then "simple"
      else if words.length < 25 then "moderate" else "complex"
    key_themes := extract_basic_themes text
    semantic_density :=
      if 0 < text.length then (tamil_words.length : ℚ) / (text.length : ℚ) else 0
    meaning := generate_basic_meaning text words tamil_words }

/-- The `positive_indicators` list (verbatim, duplicates included). -/
def positive_indicators : List String :=
  ["நல்ல", "அழগு", "மகிழ்ச்சி", "சந்தோஷம்", "வெற்றி", "பெருமை", "அன்பு", "நன்மை",
   "खुशी", "प्रेम", "सुंदर", "अच्छा", "खुश", "प्रसन्न", "सफलता", "गर्व",
   "happy", "love", "beautiful", "good", "joy", "success", "pride", "wonderful",
   "excellent", "amazing", "fantastic", "great", "awesome", "brilliant",
   "வெற்றி", "இனிமை", "பாராட்டு", "பாசம்", "ஆனந்தம்", "ஆரோக்கியம்", "ஆசீர்வாதம்"]

/-- The `negative_indicators` list (verbatim, duplicates included). -/
def negative_indicators : List String :=
  ["துன்பம்", "கோபம்", "வருத்தம்", "பயம்", "கஷ்டம்", "தோல்வி", "சோகம்", "வேதனை",
   "दुख", "गुस्सा", "भय", "चिंता", "परेशान", "गम", "दर्द", "कष्ट",
   "sad", "angry", "fear", "worry", "trouble", "pain", "sorrow", "grief",
   "terrible", "awful", "horrible", "bad", "worst", "hate", "angry",
   "நோய்", "வன்மை", "எரிச்சல்", "கவலை", "அழுகை", "குற்றம்", "பாவம்"]

/-- The `neutral_indicators` list. -/
def neutral_indicators : List String :=
  ["சாதாரண", "நடுநிலை", "சமம்", "இயல்பு", "सामान्य", "normal", "okay", "fine",
   "regular", "usual", "typical", "average", "standard"]

/-- The `intensifiers` list (verbatim). -/
def intensifiers : List String :=
  ["மிகவும்", "மிக", "வளரே", "मिকुंती", "बहुत", "बेहद", "बिल्कुल",
   "very", "extremely", "really", "quite", "so", "too", "much"]

/-- `sum(1 for word in indicators if word.lower() in text_lower)`. -/
def countHits (inds : List String) (textLower : List Char) : Nat :=
  (inds.filter (fun w => hasSub textLower (w.data.map asciiLower))).length

/-- The sentiment branch of `_basic_sentiment_analysis`, before the final
clip: label and raw confidence from the three class scores and the
intensity multiplier. -/
def sentimentLabelConfidence (p n nu : Nat) (mult : ℚ) : String × ℚ :=
  if p + n + nu = 0 then ("neutral", 1 / 2)
  else if n < p then ("positive", ((p : ℚ) / ((p + n + nu : Nat) : ℚ)) * mult)
  else if p < n then ("negative", ((n : ℚ) / ((p + n + nu : Nat) : ℚ)) * mult)
  else ("neutral", if 0 < nu then (nu : ℚ) / ((p + n + nu : Nat) : ℚ) else 1 / 2)

/-- The `detailed_analysis` sub-dictionary of the sentiment result. -/
structure SentimentDetail where
  has_intensifiers : Bool
  sentiment_words_found : Nat
  sentiment_clarity : String
  dominant_sentiment : String

/-- The `sentiment_analysis` dictionary; `explanation` is the key only
the Gemini overlay adds. -/
structure SentimentAnalysis where
  overall_sentiment : String
  confidence : ℚ
  positive_indicators : Nat
  negative_indicators : Nat
  neutral_indicators : Nat
  intensifier_count : Nat
  sentiment_strength : String
  detailed_analysis : SentimentDetail
  explanation : Option String := none

/-- `SemanticSentimentAnalyzer._basic_sentiment_analysis` (the float
literal 0.3 is modelled by the rational 3/10). -/
def basic_sentiment_analysis (text : List Char) : SentimentAnalysis :=
  let textLower := text.map asciiLower
  let p := countHits positive_indicators textLower
  let n := countHits negative_indicators textLower
  let nu := countHits neutral_indicators textLower
  let ic := countHits intensifiers textLower
  let sc := sentimentLabelConfidence p n nu (1 + (ic : ℚ) * (3 / 10))
  let confidence := min 1 sc.2
  { overall_sentiment := sc.1
    confidence := confidence
    positive_indicators := p
    negative_indicators := n
    neutral_indicators := nu
    intensifier_count := ic
    sentiment_strength :=
      if 7 / 10 < confidence then "strong"
      else if 2 / 5 < confidence then "moderate" else "weak"
    detailed_analysis :=
      { has_intensifiers := 0 < ic
        sentiment_words_found := p + n
        sentiment_clarity := if 1 < ((p : Int) - (n : Int)).natAbs then "clear" else "mixed"
        dominant_sentiment := if sc.1 = "neutral" then "balanced" else sc.1 } }

/-- What the HTTP interaction of `GeminiCulturalAnalyzer._make_request`
did: timed out, raised a request exception, returned a non-200 status,
returned 200 without candidates, or returned 200 with extracted content. -/
inductive MakeRequestOutcome
  | timeout
  | requestExn (msg : String)
  | httpStatus (code : Nat) (body : String)
  | okNoCandidates
  | okContent (content : String)

/-- Python `str.strip()` on a `String`. -/
def pyStripStr (s : String) : String :=
  String.mk (pyStrip s.data)

/-- `GeminiCulturalAnalyzer._make_request`: every failure mode — timeout,
request exception, unexpected exception, non-200 status (including 503)
and missing candidates — is caught and becomes `None`; only a 200
response with candidates yields the stripped content. -/
def make_request (is_available : Bool) (o : MakeRequestOutcome) : Option String :=
  if is_available then
    match o with
    | .okContent s => some (pyStripStr s)
    | _ => none
  else none

/-- The dictionary returned by `_call_gemini_api`. -/
structure CallResult where
  success : Bool
  content : String

/-- `GeminiCulturalAnalyzer._call_gemini_api`. -/
def call_gemini_api (is_available : Bool) (o : MakeRequestOutcome) : CallResult :=
  if is_available then
    match make_request is_available o with
    | some c => { success := true, content := c }
    | none => { success := false, content := "" }
  else { success := false, content := "" }

/-- `GeminiCulturalAnalyzer.get_conversational_meaning`: the `text` field
of its result, or `None` if unavailable or the call did not succeed. -/
def get_conversational_meaning (is_available : Bool) (o : MakeRequestOutcome) :
    Option String :=
  if is_available then
    (if (call_gemini_api is_available o).success
     then some (call_gemini_api is_available o).content else none)
  else none

/-- The fields `_get_gemini_semantic_sentiment` reads out of the parsed
JSON response (a missing or falsy key is `none`). -/
structure GeminiParsed where
  tamil_meaning : String := ""
  source_book : Option String := none
  chapter_section : Option String := none
  verse_number : Option String := none
  line_by_line : Option String := none
  explanation : Option String := none
  theme : Option String := none
  sentiment : Option String := none

/-- Outcome of the JSON parsing step (markdown stripping plus
`json.loads`) inside `_get_gemini_semantic_sentiment`. -/
inductive ParseOutcome
  | parsed (p : GeminiParsed)
  | jsonError

/-- The keys merged into `semantic_analysis` by a Gemini enhancement;
an `Option` field updates the target only when present. -/
structure SemOverlay where
  meaning : String
  source_book : Option String
  chapter_section : Option String
  verse_number : Option String
  explanation : String
  theme : Option String
  themes : List String
  cultural_context : Option String

/-- The keys merged into `sentiment_analysis` by a Gemini enhancement. -/
structure SentOverlay where
  overall_sentiment : String
  confidence : ℚ
  explanation : String

/-- The `detailed_meaning` string built from a parsed Gemini response
(source parts, line-by-line, explanation and theme sections). -/
def buildDetailedMeaning (p : GeminiParsed) : String :=
  let source_parts :=
    (match p.source_book with | some sb => ["நூல்: " ++ sb] | none => []) ++
    (match p.chapter_section with | some cs => ["பகுதி: " ++ cs] | none => []) ++
    (match p.verse_number with | some vn => ["பாடல்: " ++ vn] | none => [])
  (if source_parts.isEmpty then p.tamil_meaning
   else String.intercalate " | " source_parts ++ "\n\n" ++ p.tamil_meaning) ++
  (match p.line_by_line with
   | some l => "\n\nவரிக்கு வரி விளக்கம்:\n" ++ l
   | none => "") ++
  (match p.explanation with
   | some e => "\n\nவிரிவான விளக்கம்:\n" ++ e
   | none => "") ++
  (match p.theme with | some t => "\n\nகருத்து: " ++ t | none => "")

/-- The overlay built from a successfully parsed response (confidence
0.9, keys defaulted to the empty string as in the source). -/
def overlayOfParsed (p : GeminiParsed) : SemOverlay × SentOverlay :=
  ({ meaning := buildDetailedMeaning p
     source_book := some (p.source_book.getD "")
     chapter_section := some (p.chapter_section.getD "")
     verse_number := some (p.verse_number.getD "")
     explanation := p.explanation.getD ""
     theme := some (p.theme.getD "")
     themes := []
     cultural_context := none },
   { overall_sentiment := p.sentiment.getD "neutral"
     confidence := 9 / 10
     explanation := "Gemini AI மூலம் பகுப்பாய்வு செய்யப்பட்டது" })

/-- The raw-text fallback overlay used when JSON parsing fails
(confidence 0.7). -/
def jsonFallbackOverlay (txt : String) : SemOverlay × SentOverlay :=
  ({ meaning := txt
     source_book := none
     chapter_section := none
     verse_number := none
     explanation := txt
     theme := none
     themes := []
     cultural_context := some "சூழல் பகுப்பாய்வு பெற இயலவில்லை" },
   { overall_sentiment := "neutral"
     confidence := 7 / 10
     explanation := "அடிப்படை பகுப்பாய்வு" })

/-- `SemanticSentimentAnalyzer._get_gemini_semantic_sentiment`: `none`
models the empty dictionary `{}`.  Every failure of the collaborator
(timeout, non-success status, request exception, empty content) ends
here as `none`; the function catches all its own exceptions, so it never
raises to `analyze_semantic_sentiment`. -/
def get_gemini_semantic_sentiment (is_available : Bool) (mo : MakeRequestOutcome)
    (po : ParseOutcome) : Option (SemOverlay × SentOverlay) :=
  if is_available then
    match get_conversational_meaning is_available mo with
    | none => none
    | some txt =>
      if txt = "" then none
      else
        match po with
        | .parsed p => some (overlayOfParsed p)
        | .jsonError => some (jsonFallbackOverlay txt)
  else none

/-- Merge a Gemini semantic overlay into the semantic dictionary
(`dict.update`). -/
def applySemOverlay (s : SemanticAnalysis) (o : SemOverlay) : SemanticAnalysis :=
  { s with
    meaning := o.meaning
    source_book := match o.source_book with | some v => some v | none => s.source_book
    chapter_section := match o.chapter_section with | some v => some v | none => s.chapter_section
    verse_number := match o.verse_number with | some v => some v | none => s.verse_number
    explanation := some o.explanation
    theme := match o.theme with | some v => some v | none => s.theme
    themes := some o.themes
    cultural_context :=
      match o.cultural_context with | some v => some v | none => s.cultural_context }

/-- Merge a Gemini sentiment overlay into the sentiment dictionary. -/
def applySentOverlay (s : SentimentAnalysis) (o : SentOverlay) : SentimentAnalysis :=
  { s with
    overall_sentiment := o.overall_sentiment
    confidence := o.confidence
    explanation := some o.explanation }

/-- The analysis result dictionary of `analyze_semantic_sentiment`. -/
structure AnalysisResult where
  input_text : String
  semantic_analysis : SemanticAnalysis
  sentiment_analysis : SentimentAnalysis
  enhanced_analysis : Bool
  processing_time : String
  timestamp : String
  cached : Bool
  gemini_error : Option String

/-- `_get_cache_key`: the md5 hex digest, modelled as an injective key
(the text itself); the analysis only ever compares keys for equality. -/
def get_cache_key (text : String) : String := text

/-- `SemanticSentimentAnalyzer._clean_cache` on an insertion-ordered
cache: if the size exceeds 100, delete the oldest fifth
(`len // 5` entries, in insertion order). -/
def clean_cache (c : List (String × α)) : List (String × α) :=
  if 100 < c.length then c.drop (c.length / 5) else c

/-- Python dict assignment `d[k] = v`: replace in place if the key
exists (keeping its position), else append. -/
def dictSet (c : List (String × α)) (k : String) (v : α) : List (String × α) :=
  if c.any (fun p => p.1 == k) then c.map (fun p => if p.1 = k then (k, v) else p)
  else c ++ [(k, v)]

/-- Python dict lookup `d.get(k)`. -/
def dictGet (c : List (String × α)) (k : String) : Option α :=
  (c.find? (fun p => p.1 == k)).map Prod.snd

/-- The string `f"{t:.2f}s"` for a duration of `hundredths/100` seconds. -/
def formatSecs (hundredths : Nat) : String :=
  toString (hundredths / 100) ++ "." ++
    (if hundredths % 100 < 10 then "0" else "") ++ toString (hundredths % 100) ++ "s"

/-- `SemanticSentimentAnalyzer.analyze_semantic_sentiment`.  `now` is the
formatted timestamp, `dur` the measured duration in hundredths of a
second; a cache hit returns the stored copy with `cached := true` and
the placeholder processing time.  The `except` branch that would set
`gemini_error` is dead code: `_get_gemini_semantic_sentiment` catches
all its own exceptions and returns `{}` instead, so the field stays
`none` on every failure path. -/
def analyze_semantic_sentiment (gemini_enabled is_available : Bool)
    (mo : MakeRequestOutcome) (po : ParseOutcome) (now : String) (dur : Nat)
    (cache : List (String × AnalysisResult)) (text : String) :
    AnalysisResult × List (String × AnalysisResult) :=
  match dictGet cache (get_cache_key text) with
  | some r => ({ r with cached := true, processing_time := "0.1s (cached)" }, cache)
  | none =>
    let base : AnalysisResult :=
      { input_text := text
        semantic_analysis := basic_semantic_analysis text.data
        sentiment_analysis := basic_sentiment_analysis text.data
        enhanced_analysis := false
        processing_time := "0"
        timestamp := now
        cached := false
        gemini_error := none }
    let withG :=
      if gemini_enabled then
        match get_gemini_semantic_sentiment is_available mo po with
        | some ov =>
          { base with
            semantic_analysis := applySemOverlay base.semantic_analysis ov.1
            sentiment_analysis := applySentOverlay base.sentiment_analysis ov.2
            enhanced_analysis := true }
        | none => base
      else base
    let final := { withG with processing_time := formatSecs dur, cached := false }
    (final, clean_cache (dictSet cache (get_cache_key text) final))

/-!
Window bounds for the SequenceMatcher embedding: the best block returned
by `find_longest_match` lies inside the requested window, hence the total
size of the matching blocks is at most each window length.  This gives
`ratio ≤ 1`.
-/

/-- The tracked best block lies in `[alo, upto) × [blo, bhi)`. -/
def BestInv (alo upto blo bhi : Nat) (s : FLMState) : Prop :=
  alo ≤ s.besti ∧ s.besti + s.bestsize ≤ upto ∧ blo ≤ s.bestj ∧
    s.bestj + s.bestsize ≤ bhi

/-- After `upto - alo` processed rows, a `j2len` entry is at most the
number of processed rows, and a non-zero entry sits at a column of the
window with run length at most the column span. -/
def MapInv (alo upto blo bhi : Nat) (s : FLMState) : Prop :=
  ∀ x, s.j2len x ≤ upto - alo ∧
    (s.j2len x ≠ 0 → blo ≤ x ∧ x < bhi ∧ s.j2len x ≤ x + 1 - blo)

lemma bestInv_mono {alo upto upto2 blo bhi : Nat} {s : FLMState} (h : upto ≤ upto2)
    (hs : BestInv alo upto blo bhi s) : BestInv alo upto2 blo bhi s := by
  obtain ⟨h1, h2, h3, h4⟩ := hs
  exact ⟨h1, by omega, h3, h4⟩

lemma mapInv_mono {alo upto upto2 blo bhi : Nat} {s : FLMState} (h : upto ≤ upto2)
    (hs : MapInv alo upto blo bhi s) : MapInv alo upto2 blo bhi s := by
  intro x
  obtain ⟨h1, h2⟩ := hs x
  exact ⟨by omega, h2⟩

lemma flmStep_inv {alo blo bhi i : Nat} {b : List Char} {c : Char} {s : FLMState}
    (hi : alo ≤ i) (hb : BestInv alo i blo bhi s) (hm : MapInv alo i blo bhi s) :
    BestInv alo (i + 1) blo bhi (flmStep i c b blo bhi s) ∧
      MapInv alo (i + 1) blo bhi (flmStep i c b blo bhi s) := by
  obtain ⟨hb1, hb2, hb3, hb4⟩ := hb
  unfold flmStep
  refine @List.foldlRecOn _ _
    (fun t => BestInv alo (i + 1) blo bhi t ∧ MapInv alo (i + 1) blo bhi t)
    _ _ _ ?_ ?_
  · constructor
    · refine ⟨?_, ?_, ?_, ?_⟩ <;> dsimp only <;> omega
    · intro x
      dsimp only
      exact ⟨Nat.zero_le _, fun h => (h rfl).elim⟩
  · rintro t ⟨⟨ht1, ht2, ht3, ht4⟩, htm⟩ j hj
    have hjw : blo ≤ j ∧ j < bhi := by
      simp only [occIdx, List.mem_filter, List.mem_range, Bool.and_eq_true,
        decide_eq_true_eq] at hj
      exact ⟨hj.2.1.1, hj.2.1.2⟩
    have hk1 : (if j = 0 then 0 else s.j2len (j - 1)) + 1 ≤ i + 1 - alo := by
      by_cases hj0 : j = 0
      · rw [if_pos hj0]; omega
      · rw [if_neg hj0]
        have := (hm (j - 1)).1
        omega
    have hk2 : (if j = 0 then 0 else s.j2len (j - 1)) + 1 ≤ j + 1 - blo := by
      by_cases hj0 : j = 0
      · rw [if_pos hj0]; omega
      · rw [if_neg hj0]
        by_cases hz : s.j2len (j - 1) = 0
        · rw [hz]; omega
        · have h3 := (hm (j - 1)).2 hz
          omega
    constructor
    · unfold BestInv
      dsimp only
      by_cases hcmp : (if j = 0 then 0 else s.j2len (j - 1)) + 1 > t.bestsize
      · simp only [if_pos hcmp]
        omega
      · simp only [if_neg hcmp]
        omega
    · intro x
      dsimp only
      by_cases hx : x = j
      · subst hx
        simp only [if_pos rfl]
        exact ⟨hk1, fun _ => ⟨hjw.1, hjw.2, hk2⟩⟩
      · simp only [if_neg hx]
        exact htm x

lemma flmScan_go (a b : List Char) (alo blo bhi : Nat) :
    ∀ (n m : Nat) (s : FLMState), alo ≤ m →
      BestInv alo m blo bhi s → MapInv alo m blo bhi s →
      BestInv alo (m + n) blo bhi
        ((List.range' m n).foldl
          (fun s i => match a[i]? with | some c => flmStep i c b blo bhi s | none => s) s) ∧
      MapInv alo (m + n) blo bhi
        ((List.range' m n).foldl
          (fun s i => match a[i]? with | some c => flmStep i c b blo bhi s | none => s) s) := by
  intro n
  induction n with
  | zero => intro m s hm hb hmap; simpa using ⟨hb, hmap⟩
  | succ n ih =>
    intro m s hm hb hmap
    rw [List.range'_succ, List.foldl_cons]
    have hstep :
        BestInv alo (m + 1) blo bhi
          (match a[m]? with | some c => flmStep m c b blo bhi s | none => s) ∧
        MapInv alo (m + 1) blo bhi
          (match a[m]? with | some c => flmStep m c b blo bhi s | none => s) := by
      cases hc : a[m]? with
      | some c => exact flmStep_inv hm hb hmap
      | none => exact ⟨bestInv_mono (by omega) hb, mapInv_mono (by omega) hmap⟩
    have := ih (m + 1) _ (by omega) hstep.1 hstep.2
    constructor
    · exact bestInv_mono (by omega) this.1
    · exact mapInv_mono (by omega) this.2

lemma flmScan_inv (a b : List Char) (alo ahi blo bhi : Nat) (h1 : alo ≤ ahi)
    (h2 : blo ≤ bhi) : BestInv alo ahi blo bhi (flmScan a b alo ahi blo bhi) := by
  unfold flmScan
  have h0b : BestInv alo alo blo bhi
      { j2len := fun _ => 0, besti := alo, bestj := blo, bestsize := 0 } := by
    refine ⟨?_, ?_, ?_, ?_⟩ <;> dsimp only [BestInv] <;> omega
  have h0m : MapInv alo alo blo bhi
      { j2len := fun _ => 0, besti := alo, bestj := blo, bestsize := 0 } := by
    intro x
    dsimp only
    exact ⟨Nat.zero_le _, fun h => (h rfl).elim⟩
  have := (flmScan_go a b alo blo bhi (ahi - alo) alo _ (le_refl _) h0b h0m).1
  have harith : alo + (ahi - alo) = ahi := by omega
  rwa [harith] at this

lemma extendBack_inv (a b : List Char) (alo blo ahi bhi : Nat) :
    ∀ (fuel : Nat) (t : Nat × Nat × Nat),
      alo ≤ t.1 → t.1 + t.2.2 ≤ ahi → blo ≤ t.2.1 → t.2.1 + t.2.2 ≤ bhi →
      alo ≤ (extendBack a b alo blo fuel t).1 ∧
        (extendBack a b alo blo fuel t).1 + (extendBack a b alo blo fuel t).2.2 ≤ ahi ∧
        blo ≤ (extendBack a b alo blo fuel t).2.1 ∧
        (extendBack a b alo blo fuel t).2.1 + (extendBack a b alo blo fuel t).2.2 ≤ bhi := by
  intro fuel
  induction fuel with
  | zero => intro t h1 h2 h3 h4; exact ⟨h1, h2, h3, h4⟩
  | succ fuel ih =>
    rintro ⟨bi, bj, bk⟩ h1 h2 h3 h4
    replace h1 : alo ≤ bi := h1
    replace h2 : bi + bk ≤ ahi := h2
    replace h3 : blo ≤ bj := h3
    replace h4 : bj + bk ≤ bhi := h4
    rw [extendBack]
    by_cases hc : alo < bi ∧ blo < bj ∧ a[bi - 1]? = b[bj - 1]? ∧ (a[bi - 1]?).isSome
    · rw [if_pos hc]
      refine ih (bi - 1, bj - 1, bk + 1) ?_ ?_ ?_ ?_ <;>
        first
          | exact (by omega : alo ≤ bi - 1)
          | exact (by omega : bi - 1 + (bk + 1) ≤ ahi)
          | exact (by omega : blo ≤ bj - 1)
          | exact (by omega : bj - 1 + (bk + 1) ≤ bhi)
    · rw [if_neg hc]
      exact ⟨h1, h2, h3, h4⟩

lemma extendFwd_inv (a b : List Char) (ahi bhi alo blo : Nat) :
    ∀ (fuel : Nat) (t : Nat × Nat × Nat),
      alo ≤ t.1 → t.1 + t.2.2 ≤ ahi → blo ≤ t.2.1 → t.2.1 + t.2.2 ≤ bhi →
      alo ≤ (extendFwd a b ahi bhi fuel t).1 ∧
        (extendFwd a b ahi bhi fuel t).1 + (extendFwd a b ahi bhi fuel t).2.2 ≤ ahi ∧
        blo ≤ (extendFwd a b ahi bhi fuel t).2.1 ∧
        (extendFwd a b ahi bhi fuel t).2.1 + (extendFwd a b ahi bhi fuel t).2.2 ≤ bhi := by
  intro fuel
  induction fuel with
  | zero => intro t h1 h2 h3 h4; exact ⟨h1, h2, h3, h4⟩
  | succ fuel ih =>
    rintro ⟨bi, bj, bk⟩ h1 h2 h3 h4
    replace h1 : alo ≤ bi := h1
    replace h2 : bi + bk ≤ ahi := h2
    replace h3 : blo ≤ bj := h3
    replace h4 : bj + bk ≤ bhi := h4
    rw [extendFwd]
    by_cases hc : bi + bk < ahi ∧ bj + bk < bhi ∧ a[bi + bk]? = b[bj + bk]? ∧
        (a[bi + bk]?).isSome
    · rw [if_pos hc]
      refine ih (bi, bj, bk + 1) ?_ ?_ ?_ ?_ <;>
        first
          | exact (by omega : alo ≤ bi)
          | exact (by omega : bi + (bk + 1) ≤ ahi)
          | exact (by omega : blo ≤ bj)
          | exact (by omega : bj + (bk + 1) ≤ bhi)
    · rw [if_neg hc]
      exact ⟨h1, h2, h3, h4⟩

lemma flm_window (a b : List Char) (alo ahi blo bhi : Nat) (h1 : alo ≤ ahi)
    (h2 : blo ≤ bhi) :
    alo ≤ (find_longest_match a b alo ahi blo bhi).1 ∧
      (find_longest_match a b alo ahi blo bhi).1 +
        (find_longest_match a b alo ahi blo bhi).2.2 ≤ ahi ∧
      blo ≤ (find_longest_match a b alo ahi blo bhi).2.1 ∧
      (find_longest_match a b alo ahi blo bhi).2.1 +
        (find_longest_match a b alo ahi blo bhi).2.2 ≤ bhi := by
  have hs := flmScan_inv a b alo ahi blo bhi h1 h2
  obtain ⟨hs1, hs2, hs3, hs4⟩ := hs
  unfold find_longest_match
  have hback := extendBack_inv a b alo blo ahi bhi (flmScan a b alo ahi blo bhi).besti
    ((flmScan a b alo ahi blo bhi).besti, (flmScan a b alo ahi blo bhi).bestj,
      (flmScan a b alo ahi blo bhi).bestsize) hs1 hs2 hs3 hs4
  exact extendFwd_inv a b ahi bhi alo blo _ _ hback.1 hback.2.1 hback.2.2.1 hback.2.2.2

lemma matchingTotal_le (a b : List Char) :
    ∀ (fuel alo ahi blo bhi : Nat), alo ≤ ahi → blo ≤ bhi →
      matchingTotal a b fuel alo ahi blo bhi ≤ min (ahi - alo) (bhi - blo) := by
  intro fuel
  induction fuel with
  | zero => intro alo ahi blo bhi h1 h2; simp [matchingTotal]
  | succ fuel ih =>
    intro alo ahi blo bhi h1 h2
    rw [matchingTotal]
    by_cases hk : (find_longest_match a b alo ahi blo bhi).2.2 = 0
    · rw [if_pos hk]; omega
    · rw [if_neg hk]
      have hw := flm_window a b alo ahi blo bhi h1 h2
      obtain ⟨hw1, hw2, hw3, hw4⟩ := hw
      have hleft := ih alo (find_longest_match a b alo ahi blo bhi).1 blo
        (find_longest_match a b alo ahi blo bhi).2.1 hw1 hw3
      have hright := ih ((find_longest_match a b alo ahi blo bhi).1 +
          (find_longest_match a b alo ahi blo bhi).2.2) ahi
        ((find_longest_match a b alo ahi blo bhi).2.1 +
          (find_longest_match a b alo ahi blo bhi).2.2) bhi hw2 hw4
      omega

lemma seqMatches_le (a b : List Char) :
    seqMatches a b ≤ min a.length b.length := by
  have := matchingTotal_le a b (a.length + 1) 0 a.length 0 b.length (by omega) (by omega)
  simpa using this

lemma seq_similarity_nonneg (a b : List Char) : 0 ≤ seq_similarity a b := by
  unfold seq_similarity
  by_cases h : a.length + b.length = 0
  · rw [if_pos h]; norm_num
  · rw [if_neg h]
    apply div_nonneg
    · exact_mod_cast Nat.zero_le _
    · positivity

lemma seq_similarity_le_one (a b : List Char) : seq_similarity a b ≤ 1 := by
  unfold seq_similarity
  by_cases h : a.length + b.length = 0
  · rw [if_pos h]
  · rw [if_neg h]
    have hp : 0 < a.length + b.length := Nat.pos_of_ne_zero h
    have hpq : (0 : ℚ) < (a.length : ℚ) + (b.length : ℚ) := by exact_mod_cast hp
    rw [div_le_one hpq]
    have hm := seqMatches_le a b
    have h2 : 2 * seqMatches a b ≤ a.length + b.length := by omega
    exact_mod_cast h2

lemma word_similarity_nonneg (t1 t2 : List Char) : 0 ≤ word_similarity t1 t2 := by
  unfold word_similarity
  split_ifs <;> positivity

lemma word_similarity_le_one (t1 t2 : List Char) : word_similarity t1 t2 ≤ 1 := by
  unfold word_similarity
  split_ifs with h1 h2
  · norm_num
  · have hcard : ((splitWS t1).toFinset ∩ (splitWS t2).toFinset).card ≤
        ((splitWS t1).toFinset ∪ (splitWS t2).toFinset).card :=
      Finset.card_le_card Finset.inter_subset_union
    rw [div_le_one (by exact_mod_cast h2)]
    exact_mod_cast hcard
  · norm_num

lemma char_similarity_nonneg (t1 t2 : List Char) : 0 ≤ char_similarity t1 t2 := by
  unfold char_similarity
  split_ifs <;> positivity

lemma char_similarity_le_one (t1 t2 : List Char) : char_similarity t1 t2 ≤ 1 := by
  unfold char_similarity
  split_ifs with h1 h2
  · norm_num
  · have hcard : (t1.toFinset ∩ t2.toFinset).card ≤ (t1.toFinset ∪ t2.toFinset).card :=
      Finset.card_le_card Finset.inter_subset_union
    rw [div_le_one (by exact_mod_cast h2)]
    exact_mod_cast hcard
  · norm_num

lemma calculate_similarity_nonneg (t1 t2 : List Char) : 0 ≤ calculate_similarity t1 t2 := by
  unfold calculate_similarity
  split_ifs
  · exact le_refl 0
  · have h1 := seq_similarity_nonneg t1 t2
    have h2 := word_similarity_nonneg t1 t2
    have h3 := char_similarity_nonneg t1 t2
    linarith

lemma calculate_similarity_le_one (t1 t2 : List Char) : calculate_similarity t1 t2 ≤ 1 := by
  unfold calculate_similarity
  split_ifs
  · norm_num
  · have h1 := seq_similarity_le_one t1 t2
    have h2 := word_similarity_le_one t1 t2
    have h3 := char_similarity_le_one t1 t2
    have h4 := seq_similarity_nonneg t1 t2
    have h5 := word_similarity_nonneg t1 t2
    have h6 := char_similarity_nonneg t1 t2
    linarith

/-- C2, counterexample: the composite similarity is not symmetric; on the
pair (`tide`, `diet`) the sequence-matcher ratio is 1/4 one way and 1/2
the other, giving composite scores 13/40 and 9/20. -/
theorem claim_C2_counterexample :
    calculate_similarity tideL dietL ≠ calculate_similarity dietL tideL := by
  rw [calcSim_tide_diet, calcSim_diet_tide]
  norm_num

/-- C2, amended: the token-set and character-set Jaccard sub-metrics are
symmetric, but `SequenceMatcher.ratio` is not, so `calculate_similarity`
itself is not symmetric (witnessed by the pair (`tide`, `diet`)). -/
theorem claim_C2_amended :
    (∀ a b : List Char, word_similarity a b = word_similarity b a) ∧
    (∀ a b : List Char, char_similarity a b = char_similarity b a) ∧
    (∃ a b : List Char, calculate_similarity a b ≠ calculate_similarity b a) := by
  refine ⟨?_, ?_, ⟨tideL, dietL, ?_⟩⟩
  · intro a b
    unfold word_similarity
    by_cases hA : (splitWS a).toFinset = ∅ <;> by_cases hB : (splitWS b).toFinset = ∅ <;>
      simp [hA, hB, Finset.union_comm, Finset.inter_comm]
  · intro a b
    unfold char_similarity
    by_cases hA : a.toFinset = ∅ <;> by_cases hB : b.toFinset = ∅ <;>
      simp [hA, hB, Finset.union_comm, Finset.inter_comm]
  · rw [calcSim_tide_diet, calcSim_diet_tide]
    norm_num

/-- C3: `calculate_similarity` always lies in [0,1]; on two nonempty
inputs it is exactly the fixed weighted sum `0.5*seq + 0.3*word +
0.2*char`, and an empty input yields exactly 0 (the empty guard, no
division by zero). -/
theorem claim_C3_similarity_contract (t1 t2 : List Char) :
    0 ≤ calculate_similarity t1 t2 ∧ calculate_similarity t1 t2 ≤ 1 ∧
      (t1 = [] ∨ t2 = [] → calculate_similarity t1 t2 = 0) ∧
      (t1 ≠ [] → t2 ≠ [] →
        calculate_similarity t1 t2 =
          seq_similarity t1 t2 * (1 / 2) + word_similarity t1 t2 * (3 / 10) +
            char_similarity t1 t2 * (1 / 5)) := by
  refine ⟨calculate_similarity_nonneg t1 t2, calculate_similarity_le_one t1 t2, ?_, ?_⟩
  · intro h
    unfold calculate_similarity
    rw [if_pos h]
  · intro h1 h2
    unfold calculate_similarity
    rw [if_neg (by tauto)]

/-- Witness for C3 at concrete inputs. -/
theorem claim_C3_witness :
    calculate_similarity tideL dietL =
      seq_similarity tideL dietL * (1 / 2) + word_similarity tideL dietL * (3 / 10) +
        char_similarity tideL dietL * (1 / 5) ∧
    calculate_similarity ([] : List Char) dietL = 0 ∧
    0 ≤ calculate_similarity tideL dietL := by
  refine ⟨(claim_C3_similarity_contract tideL dietL).2.2.2 (by decide) (by decide),
    (claim_C3_similarity_contract [] dietL).2.2.1 (Or.inl rfl),
    (claim_C3_similarity_contract tideL dietL).1⟩

/-- C6: after an insertion into a cache of size at most 100, the cleaned
cache again has size at most 100; a fresh key is appended at the back
(so the front of the list is the oldest entry), and when the insertion
overflows (size 101) the cleaner drops the oldest `101 // 5 = 20`
entries, leaving 81. -/
theorem claim_C6_cache_bound {α : Type} (c : List (String × α)) (k : String) (v : α)
    (h : c.length ≤ 100) :
    (clean_cache (dictSet c k v)).length ≤ 100 ∧
    ((∀ p ∈ c, p.1 ≠ k) → dictSet c k v = c ++ [(k, v)]) ∧
    (100 < (dictSet c k v).length →
      (dictSet c k v).length = 101 ∧
      clean_cache (dictSet c k v) = (dictSet c k v).drop ((dictSet c k v).length / 5) ∧
      (clean_cache (dictSet c k v)).length = 81) := by
  have hlen : (dictSet c k v).length = c.length ∨
      (dictSet c k v).length = c.length + 1 := by
    unfold dictSet
    by_cases hany : c.any (fun p => p.1 == k)
    · rw [if_pos hany]; left; simp
    · rw [if_neg hany]; right; simp
  refine ⟨?_, ?_, ?_⟩
  · unfold clean_cache
    by_cases hgt : 100 < (dictSet c k v).length
    · rw [if_pos hgt]
      rw [List.length_drop]
      omega
    · rw [if_neg hgt]
      omega
  · intro hfresh
    have hany : ¬(c.any (fun p => p.1 == k) = true) := by
      intro hcontra
      simp only [List.any_eq_true, beq_iff_eq] at hcontra
      obtain ⟨p, hp, hpk⟩ := hcontra
      exact hfresh p hp hpk
    unfold dictSet
    rw [if_neg hany]
  · intro hgt
    have h101 : (dictSet c k v).length = 101 := by omega
    refine ⟨h101, ?_, ?_⟩
    · unfold clean_cache
      rw [if_pos hgt]
    · unfold clean_cache
      rw [if_pos hgt, List.length_drop, h101]

/-!
Properties of `find_matching_verses` (claim C4): thresholding, per-verse
best score, deduplication and descending sort.
-/

lemma lineSimilarity_nonneg (input : List Char) (line : Option (Nat × List Char)) :
    0 ≤ lineSimilarity input line := by
  cases line with
  | none => simp [lineSimilarity]
  | some p =>
    simp only [lineSimilarity]
    split_ifs
    · exact le_refl 0
    · exact calculate_similarity_nonneg _ _

lemma rowScore_nonneg (input : List Char) (r : Verse × Option (Nat × List Char)) :
    0 ≤ rowScore input r :=
  le_trans (calculate_similarity_nonneg _ _) (le_max_left _ _)

lemma le_foldl_max (l : List ℚ) (init : ℚ) : init ≤ l.foldl max init := by
  induction l generalizing init with
  | nil => exact le_refl _
  | cons a l ih => exact le_trans (le_max_left init a) (ih (max init a))

lemma mem_le_foldl_max (l : List ℚ) : ∀ (init x : ℚ), x ∈ l → x ≤ l.foldl max init := by
  induction l with
  | nil => intro init x hx; cases hx
  | cons a l ih =>
    intro init x hx
    rcases List.mem_cons.mp hx with rfl | hmem
    · exact le_trans (le_max_right init x) (le_foldl_max l (max init x))
    · exact ih (max init a) x hmem

lemma foldl_max_mem (l : List ℚ) : ∀ (init : ℚ),
    l.foldl max init = init ∨ l.foldl max init ∈ l := by
  induction l with
  | nil => intro init; exact Or.inl rfl
  | cons a l ih =>
    intro init
    rcases ih (max init a) with h | h
    · rcases max_choice init a with h2 | h2
      · left
        rw [List.foldl_cons, h, h2]
      · right
        rw [List.foldl_cons, h, h2]
        exact List.mem_cons_self a l
    · right
      rw [List.foldl_cons]
      exact List.mem_cons_of_mem a h

lemma rowsOf_fst (v : Verse) (r : Verse × Option (Nat × List Char)) (hr : r ∈ rowsOf v) :
    r.1 = v := by
  unfold rowsOf at hr
  rcases hv : v.lines with _ | ⟨l, rest⟩
  · rw [hv] at hr
    simp only [List.mem_singleton] at hr
    rw [hr]
  · rw [hv] at hr
    simp only [List.mem_map] at hr
    obtain ⟨p, _, hp⟩ := hr
    rw [← hp]

lemma rowScore_le_verseBestScore (input : List Char) (v : Verse)
    (r : Verse × Option (Nat × List Char)) (hr : r ∈ rowsOf v) :
    rowScore input r ≤ verseBestScore input v :=
  mem_le_foldl_max _ 0 _ (List.mem_map_of_mem (rowScore input) hr)

lemma verseBestScore_cases (input : List Char) (v : Verse) :
    verseBestScore input v = 0 ∨
      ∃ r ∈ rowsOf v, rowScore input r = verseBestScore input v := by
  unfold verseBestScore
  rcases foldl_max_mem ((rowsOf v).map (rowScore input)) 0 with h | h
  · exact Or.inl h
  · right
    obtain ⟨r, hr, hval⟩ := List.mem_map.mp h
    exact ⟨r, hr, hval⟩

lemma rowEntry_some (input : List Char) (θ : ℚ) (r : Verse × Option (Nat × List Char))
    (e : MatchEntry) (h : rowEntry input θ r = some e) :
    θ ≤ e.similarity_score ∧ e.similarity_score = rowScore input r ∧
      e.verse_id = r.1.verse_id := by
  unfold rowEntry at h
  by_cases hθ : θ ≤ rowScore input r
  · rw [if_pos hθ] at h
    obtain rfl := Option.some_injective _ h
    exact ⟨hθ, rfl, rfl⟩
  · rw [if_neg hθ] at h
    cases h

lemma rowEntry_of_le (input : List Char) (θ : ℚ) (r : Verse × Option (Nat × List Char))
    (hθ : θ ≤ rowScore input r) :
    ∃ e, rowEntry input θ r = some e ∧ e.similarity_score = rowScore input r ∧
      e.verse_id = r.1.verse_id := by
  unfold rowEntry
  rw [if_pos hθ]
  exact ⟨_, rfl, rfl, rfl⟩

lemma mem_collectMatches_iff (corpus : List Verse) (input : List Char) (θ : ℚ)
    (e : MatchEntry) :
    e ∈ collectMatches corpus input θ ↔
      ∃ v ∈ corpus, ∃ r ∈ rowsOf v, rowEntry input θ r = some e := by
  unfold collectMatches
  simp only [List.mem_filterMap, List.mem_flatten, List.mem_map]
  constructor
  · rintro ⟨r, ⟨rows, ⟨v, hv, hrows⟩, hr⟩, hre⟩
    exact ⟨v, hv, r, hrows ▸ hr, hre⟩
  · rintro ⟨v, hv, r, hr, hre⟩
    exact ⟨r, ⟨rowsOf v, ⟨v, hv, rfl⟩, hr⟩, hre⟩

lemma dedupInsert_step (acc processed : List MatchEntry) (m : MatchEntry)
    (h1 : ∀ e ∈ acc, e ∈ processed ∧ ∀ m2 ∈ processed,
      m2.verse_id = e.verse_id → m2.similarity_score ≤ e.similarity_score)
    (h2 : ∀ m2 ∈ processed, ∃ e ∈ acc, e.verse_id = m2.verse_id)
    (h3 : (acc.map MatchEntry.verse_id).Nodup) :
    (∀ e ∈ dedupInsert acc m, e ∈ processed ++ [m] ∧ ∀ m2 ∈ processed ++ [m],
      m2.verse_id = e.verse_id → m2.similarity_score ≤ e.similarity_score) ∧
    (∀ m2 ∈ processed ++ [m], ∃ e ∈ dedupInsert acc m, e.verse_id = m2.verse_id) ∧
    ((dedupInsert acc m).map MatchEntry.verse_id).Nodup := by
  unfold dedupInsert
  by_cases hany : acc.any (fun e => e.verse_id == m.verse_id) = true
  · rw [if_pos hany]
    have hvid : ∀ e : MatchEntry,
        (if e.verse_id = m.verse_id ∧ e.similarity_score < m.similarity_score then m
          else e).verse_id = e.verse_id := by
      intro e
      split_ifs with hc
      · rw [hc.1]
      · rfl
    refine ⟨?_, ?_, ?_⟩
    · intro e2 he2
      obtain ⟨e, he, hfe⟩ := List.mem_map.mp he2
      by_cases hc : e.verse_id = m.verse_id ∧ e.similarity_score < m.similarity_score
      · rw [if_pos hc] at hfe
        subst hfe
        constructor
        · exact List.mem_append_right _ (List.mem_singleton_self m)
        · intro m2 hm2 hvm
          rcases List.mem_append.mp hm2 with hm2p | hm2m
          · have hb := (h1 e he).2 m2 hm2p (by rw [hvm, ← hc.1])
            exact le_trans hb (le_of_lt hc.2)
          · obtain rfl := List.mem_singleton.mp hm2m
            exact le_refl _
      · rw [if_neg hc] at hfe
        subst hfe
        constructor
        · exact List.mem_append_left _ (h1 e he).1
        · intro m2 hm2 hvm
          rcases List.mem_append.mp hm2 with hm2p | hm2m
          · exact (h1 e he).2 m2 hm2p hvm
          · obtain rfl := List.mem_singleton.mp hm2m
            by_cases hveq : e.verse_id = m2.verse_id
            · have : ¬ e.similarity_score < m2.similarity_score := fun hlt =>
                hc ⟨hveq, hlt⟩
              exact le_of_not_lt this
            · exact absurd hvm.symm hveq
    · intro m2 hm2
      rcases List.mem_append.mp hm2 with hm2p | hm2m
      · obtain ⟨e, he, hev⟩ := h2 m2 hm2p
        refine ⟨_, List.mem_map_of_mem _ he, ?_⟩
        rw [hvid e, hev]
      · obtain rfl := List.mem_singleton.mp hm2m
        obtain ⟨e, he, hev⟩ := List.any_eq_true.mp hany
        refine ⟨_, List.mem_map_of_mem _ he, ?_⟩
        rw [hvid e]
        exact beq_iff_eq.mp hev
    · have hmaps : (acc.map (fun e =>
          if e.verse_id = m.verse_id ∧ e.similarity_score < m.similarity_score then m
            else e)).map MatchEntry.verse_id = acc.map MatchEntry.verse_id := by
        rw [List.map_map]
        exact List.map_congr_left (fun e _ => hvid e)
      rw [hmaps]
      exact h3
  · rw [if_neg hany]
    have habs : ∀ e ∈ acc, ¬ e.verse_id = m.verse_id := by
      intro e he hev
      exact hany (List.any_eq_true.mpr ⟨e, he, beq_iff_eq.mpr hev⟩)
    refine ⟨?_, ?_, ?_⟩
    · intro e2 he2
      rcases List.mem_append.mp he2 with he2a | he2m
      · constructor
        · exact List.mem_append_left _ (h1 e2 he2a).1
        · intro m2 hm2 hvm
          rcases List.mem_append.mp hm2 with hm2p | hm2m
          · exact (h1 e2 he2a).2 m2 hm2p hvm
          · obtain rfl := List.mem_singleton.mp hm2m
            exact absurd (hvm.symm) (habs e2 he2a)
      · obtain rfl := List.mem_singleton.mp he2m
        constructor
        · exact List.mem_append_right _ (List.mem_singleton_self e2)
        · intro m2 hm2 hvm
          rcases List.mem_append.mp hm2 with hm2p | hm2m
          · obtain ⟨e, he, hev⟩ := h2 m2 hm2p
            exact absurd (hev.trans hvm) (habs e he)
          · obtain rfl := List.mem_singleton.mp hm2m
            exact le_refl _
    · intro m2 hm2
      rcases List.mem_append.mp hm2 with hm2p | hm2m
      · obtain ⟨e, he, hev⟩ := h2 m2 hm2p
        exact ⟨e, List.mem_append_left _ he, hev⟩
      · obtain rfl := List.mem_singleton.mp hm2m
        exact ⟨m2, List.mem_append_right _ (List.mem_singleton_self m2), rfl⟩
    · rw [List.map_append]
      rw [List.nodup_append]
      refine ⟨h3, List.nodup_singleton _, ?_⟩
      intro x hx hxm
      simp only [List.map_cons, List.map_nil, List.mem_singleton] at hxm
      obtain ⟨e, he, hev⟩ := List.mem_map.mp hx
      exact habs e he (hev.trans hxm)

lemma dedup_go (ms : List MatchEntry) :
    ∀ (acc processed : List MatchEntry),
      (∀ e ∈ acc, e ∈ processed ∧ ∀ m2 ∈ processed,
        m2.verse_id = e.verse_id → m2.similarity_score ≤ e.similarity_score) →
      (∀ m2 ∈ processed, ∃ e ∈ acc, e.verse_id = m2.verse_id) →
      (acc.map MatchEntry.verse_id).Nodup →
      (∀ e ∈ ms.foldl dedupInsert acc, e ∈ processed ++ ms ∧
        ∀ m2 ∈ processed ++ ms, m2.verse_id = e.verse_id →
          m2.similarity_score ≤ e.similarity_score) ∧
      (∀ m2 ∈ processed ++ ms, ∃ e ∈ ms.foldl dedupInsert acc,
        e.verse_id = m2.verse_id) ∧
      ((ms.foldl dedupInsert acc).map MatchEntry.verse_id).Nodup := by
  induction ms with
  | nil =>
    intro acc processed h1 h2 h3
    simpa using ⟨h1, h2, h3⟩
  | cons m ms ih =>
    intro acc processed h1 h2 h3
    have step := dedupInsert_step acc processed m h1 h2 h3
    have main := ih (dedupInsert acc m) (processed ++ [m]) step.1 step.2.1 step.2.2
    rw [List.foldl_cons]
    have harr : processed ++ [m] ++ ms = processed ++ m :: ms := by
      rw [List.append_assoc, List.singleton_append]
    rw [harr] at main
    exact main

lemma dedupMatches_spec (ms : List MatchEntry) :
    (∀ e ∈ dedupMatches ms, e ∈ ms ∧ ∀ m2 ∈ ms, m2.verse_id = e.verse_id →
      m2.similarity_score ≤ e.similarity_score) ∧
    (∀ m2 ∈ ms, ∃ e ∈ dedupMatches ms, e.verse_id = m2.verse_id) ∧
    ((dedupMatches ms).map MatchEntry.verse_id).Nodup := by
  have := dedup_go ms [] [] (by simp) (by simp) (by simp)
  simpa [dedupMatches] using this

lemma sortMatches_pairwise (ms : List MatchEntry) :
    (sortMatches ms).Pairwise
      (fun e1 e2 => e2.similarity_score ≤ e1.similarity_score) := by
  unfold sortMatches
  have htrans : ∀ (a b c : MatchEntry),
      (fun e1 e2 : MatchEntry => decide (e2.similarity_score ≤ e1.similarity_score)) a b =
        true →
      (fun e1 e2 : MatchEntry => decide (e2.similarity_score ≤ e1.similarity_score)) b c =
        true →
      (fun e1 e2 : MatchEntry => decide (e2.similarity_score ≤ e1.similarity_score)) a c =
        true := by
    intro a b c hab hbc
    exact decide_eq_true (le_trans (of_decide_eq_true hbc) (of_decide_eq_true hab))
  have htotal : ∀ (a b : MatchEntry),
      ((fun e1 e2 : MatchEntry => decide (e2.similarity_score ≤ e1.similarity_score)) a b ||
        (fun e1 e2 : MatchEntry => decide (e2.similarity_score ≤ e1.similarity_score)) b a) =
        true := by
    intro a b
    show (decide (b.similarity_score ≤ a.similarity_score) ||
      decide (a.similarity_score ≤ b.similarity_score)) = true
    rcases le_total b.similarity_score a.similarity_score with h | h
    · rw [decide_eq_true h]
      rfl
    · rw [decide_eq_true h, Bool.or_true]
  exact (List.sorted_mergeSort htrans htotal ms).imp (fun hab => of_decide_eq_true hab)

lemma mem_sortMatches (ms : List MatchEntry) (e : MatchEntry) :
    e ∈ sortMatches ms ↔ e ∈ ms := by
  unfold sortMatches
  exact List.mem_mergeSort

lemma sortMatches_nodup_map (ms : List MatchEntry)
    (h : (ms.map MatchEntry.verse_id).Nodup) :
    ((sortMatches ms).map MatchEntry.verse_id).Nodup := by
  unfold sortMatches
  exact (((List.mergeSort_perm ms _).map MatchEntry.verse_id).nodup_iff).mpr h

/-- C4: every entry returned by `find_matching_verses` clears the
threshold; each entry carries the best score of its verse over the full
text and all its lines; at most one entry per verse id is returned; the
result is sorted by descending score; and when no verse clears the
threshold the result is the empty list (not an error). -/
theorem claim_C4_match_selector (corpus : List Verse) (text : List Char) (θ : ℚ) :
    (∀ e ∈ find_matching_verses corpus text θ, θ ≤ e.similarity_score) ∧
    (∀ e ∈ find_matching_verses corpus text θ, ∃ v ∈ corpus,
      e.verse_id = v.verse_id ∧
        e.similarity_score = verseBestScore (clean_text text) v) ∧
    (find_matching_verses corpus text θ).Pairwise
      (fun e1 e2 => e2.similarity_score ≤ e1.similarity_score) ∧
    ((find_matching_verses corpus text θ).map MatchEntry.verse_id).Nodup ∧
    ((∀ v ∈ corpus, verseBestScore (clean_text text) v < θ) →
      find_matching_verses corpus text θ = []) := by
  unfold find_matching_verses
  by_cases hblank : pyStrip text = []
  · rw [if_pos hblank]
    simp
  · rw [if_neg hblank]
    have hdd := dedupMatches_spec (collectMatches corpus (clean_text text) θ)
    have hmem : ∀ e ∈ sortMatches (dedupMatches (collectMatches corpus (clean_text text) θ)),
        e ∈ collectMatches corpus (clean_text text) θ ∧
          ∀ m2 ∈ collectMatches corpus (clean_text text) θ,
            m2.verse_id = e.verse_id → m2.similarity_score ≤ e.similarity_score := by
      intro e he
      exact hdd.1 e ((mem_sortMatches _ e).mp he)
    refine ⟨?_, ?_, sortMatches_pairwise _, sortMatches_nodup_map _ hdd.2.2, ?_⟩
    · intro e he
      obtain ⟨hems, _⟩ := hmem e he
      obtain ⟨v, hv, r, hr, hre⟩ := (mem_collectMatches_iff _ _ _ _).mp hems
      exact (rowEntry_some _ _ _ _ hre).1
    · intro e he
      obtain ⟨hems, hbound⟩ := hmem e he
      obtain ⟨v, hv, r, hr, hre⟩ := (mem_collectMatches_iff _ _ _ _).mp hems
      obtain ⟨hθe, hescore, hevid⟩ := rowEntry_some _ _ _ _ hre
      refine ⟨v, hv, by rw [hevid, rowsOf_fst v r hr], ?_⟩
      have hle : e.similarity_score ≤ verseBestScore (clean_text text) v := by
        rw [hescore]
        exact rowScore_le_verseBestScore _ v r hr
      rcases verseBestScore_cases (clean_text text) v with hzero | ⟨r2, hr2, hr2best⟩
      · have h0 : 0 ≤ e.similarity_score := by
          rw [hescore]
          exact rowScore_nonneg _ r
        rw [hzero] at hle
        rw [hzero]
        exact le_antisymm hle h0
      · have hθ2 : θ ≤ rowScore (clean_text text) r2 := by
          rw [hr2best]
          exact le_trans hθe hle
        obtain ⟨m2, hm2eq, hm2score, hm2vid⟩ := rowEntry_of_le _ θ r2 hθ2
        have hm2mem : m2 ∈ collectMatches corpus (clean_text text) θ :=
          (mem_collectMatches_iff _ _ _ _).mpr ⟨v, hv, r2, hr2, hm2eq⟩
        have hm2v : m2.verse_id = e.verse_id := by
          rw [hm2vid, rowsOf_fst v r2 hr2, hevid, rowsOf_fst v r hr]
        have hge := hbound m2 hm2mem hm2v
        rw [hm2score, hr2best] at hge
        exact le_antisymm hle hge
    · intro hall
      have hempty : collectMatches corpus (clean_text text) θ = [] := by
        rcases hcm : collectMatches corpus (clean_text text) θ with _ | ⟨e, rest⟩
        · rfl
        · exfalso
          have he : e ∈ collectMatches corpus (clean_text text) θ := by
            rw [hcm]
            exact List.mem_cons_self e rest
          obtain ⟨v, hv, r, hr, hre⟩ := (mem_collectMatches_iff _ _ _ _).mp he
          obtain ⟨hθe, hescore, _⟩ := rowEntry_some _ _ _ _ hre
          have h1 := rowScore_le_verseBestScore (clean_text text) v r hr
          have h2 := hall v hv
          rw [hescore] at hθe
          exact absurd (lt_of_le_of_lt (le_trans hθe h1) h2) (lt_irrefl θ)
      rw [hempty]
      simp [dedupMatches, sortMatches]

/-- Witness for C4 on a corpus nothing in which clears the threshold. -/
theorem claim_C4_witness :
    find_matching_verses [] ['a'] (3 / 5) = [] ∧
    (∀ e ∈ find_matching_verses [] ['a'] (3 / 5), (3 / 5 : ℚ) ≤ e.similarity_score) := by
  refine ⟨(claim_C4_match_selector [] ['a'] (3 / 5)).2.2.2.2 ?_,
    (claim_C4_match_selector [] ['a'] (3 / 5)).1⟩
  intro v hv
  cases hv

/-- The empty cultural-elements record (a text with no recognized
characters, places, concepts, keywords or literary markers). -/
def noElems : CulturalElements :=
  { characters := [], places := [], concepts := [], keywords := [],
    literary_significance := [] }

/-- Closed form of the final confidence of
`determine_kambaramayanam_content`: the numerator sums `score * weight`
over the factors present, while the denominator always contains the
weights 1/5, 3/20 and 1/20 of the `characters`, `keywords` and
`text_length` factors — even when their scores are zero — and
conditionally the `verse_match` and `literary` weights. -/
lemma determine_confidence_formula (vm : List MatchEntry) (el : CulturalElements)
    (text : List Char) (θ : ℚ) :
    (determine_kambaramayanam_content vm el text θ).2 =
      ((if vm.isEmpty then 0 else bestMatchScore vm * (1 / 2)) +
        min ((el.characters.length : ℚ) * (1 / 10)) (3 / 10) * (1 / 5) +
        min ((el.keywords.length : ℚ) * (1 / 20)) (1 / 5) * (3 / 20) +
        (if el.literary_significance.isEmpty then 0
         else min ((el.literary_significance.length : ℚ) * (1 / 20)) (3 / 20) * (1 / 10)) +
        min ((text.length : ℚ) / 200) (1 / 10) * (1 / 20)) /
      ((if vm.isEmpty then 0 else 1 / 2) + 1 / 5 + 3 / 20 +
        (if el.literary_significance.isEmpty then 0 else 1 / 10) + 1 / 20) := by
  unfold determine_kambaramayanam_content confidenceFactors
  by_cases h1 : vm.isEmpty <;> by_cases h2 : el.literary_significance.isEmpty <;>
    · simp only [h1, h2, if_true, if_false, Bool.false_eq_true, List.cons_append,
        List.nil_append, List.foldl_cons, List.foldl_nil]
      rw [if_pos (by norm_num)]
      try rw [div_eq_div_iff (by norm_num) (by norm_num)]
      try ring

/-- The decision bit of `determine_kambaramayanam_content` is the
inclusive comparison of the final confidence with the threshold. -/
lemma determine_decision (vm : List MatchEntry) (el : CulturalElements)
    (text : List Char) (θ : ℚ) :
    (determine_kambaramayanam_content vm el text θ).1 =
      decide (θ ≤ (determine_kambaramayanam_content vm el text θ).2) := rfl

/-- The verse-match list used by the C1 counterexample. -/
def vm08 : List MatchEntry :=
  [{ verse_id := 1, similarity_score := 4 / 5, match_type := "verse", line_number := none }]

/-- C1, counterexample: on a query with one verse match of score 0.8 and
no other signals, the characters, keywords and text-length factors all
score zero yet their weights stay in the denominator: the code returns
4/9 ≈ 0.444, while the spec's only-nonzero-weights average would give
0.8. -/
theorem claim_C1_counterexample :
    (determine_kambaramayanam_content vm08 noElems [] (1 / 2)).2 = 4 / 9 ∧
    specNonzeroOnlyConfidence vm08 noElems [] = 4 / 5 ∧
    (4 / 9 : ℚ) ≠ 4 / 5 := by
  have hbest : bestMatchScore vm08 = 4 / 5 := rfl
  refine ⟨?_, ?_, by norm_num⟩
  · rw [determine_confidence_formula, hbest]
    norm_num [vm08, noElems, min_def]
  · unfold specNonzeroOnlyConfidence confidenceFactors
    simp only [vm08, noElems, List.isEmpty, List.length_nil, List.cons_append,
      List.nil_append, List.filter_cons, List.filter_nil, decide_eq_true_eq]
    norm_num [min_def, List.foldl_cons, List.foldl_nil, bestMatchScore]

/-- C1, amended: the final confidence is the weighted sum over the factor
list actually built, divided by the sum of the weights of those factors:
`verse_match` is included only for a nonempty match list and `literary`
only when literary markers exist, but `characters`, `keywords` and
`text_length` are always included with weights 1/5, 3/20 and 1/20, even
when their contribution is zero, so zero-score factors do dilute the
average. -/
theorem claim_C1_amended (vm : List MatchEntry) (el : CulturalElements)
    (text : List Char) (θ : ℚ) :
    (determine_kambaramayanam_content vm el text θ).2 =
      ((if vm.isEmpty then 0 else bestMatchScore vm * (1 / 2)) +
        min ((el.characters.length : ℚ) * (1 / 10)) (3 / 10) * (1 / 5) +
        min ((el.keywords.length : ℚ) * (1 / 20)) (1 / 5) * (3 / 20) +
        (if el.literary_significance.isEmpty then 0
         else min ((el.literary_significance.length : ℚ) * (1 / 20)) (3 / 20) * (1 / 10)) +
        min ((text.length : ℚ) / 200) (1 / 10) * (1 / 20)) /
      ((if vm.isEmpty then 0 else 1 / 2) + 1 / 5 + 3 / 20 +
        (if el.literary_significance.isEmpty then 0 else 1 / 10) + 1 / 20) :=
  determine_confidence_formula vm el text θ

/-- The verse-match lists used by the C9 theorems. -/
def entHalf : List MatchEntry :=
  [{ verse_id := 2, similarity_score := 1 / 2, match_type := "verse", line_number := none }]

/-- A match list whose blended confidence lands exactly on the 0.5
threshold. -/
def ent09 : List MatchEntry :=
  [{ verse_id := 3, similarity_score := 9 / 10, match_type := "verse", line_number := none }]

/-- A match list whose blended confidence lands just below the 0.5
threshold. -/
def ent089 : List MatchEntry :=
  [{ verse_id := 4, similarity_score := 89 / 100, match_type := "verse",
     line_number := none }]

/-- C9, counterexample: a match list whose top score is exactly the 0.5
threshold does not make the classifier return true — the classifier
thresholds the blended weighted confidence, which here is 5/18 < 0.5. -/
theorem claim_C9_counterexample :
    (determine_kambaramayanam_content entHalf noElems [] (1 / 2)).1 = false ∧
    (determine_kambaramayanam_content entHalf noElems [] (1 / 2)).2 = 5 / 18 := by
  have hconf : (determine_kambaramayanam_content entHalf noElems [] (1 / 2)).2 = 5 / 18 := by
    rw [determine_confidence_formula]
    have hbest : bestMatchScore entHalf = 1 / 2 := rfl
    rw [hbest]
    norm_num [entHalf, noElems, min_def]
  refine ⟨?_, hconf⟩
  rw [determine_decision, hconf]
  exact decide_eq_false (by norm_num)

/-- C9, amended: the classifier compares the blended final confidence
(not the top match score) with the threshold, inclusively:
`is_known_work = (threshold ≤ confidence)`; an input whose blended
confidence is exactly 0.5 (single match of score 0.9, no other signals)
yields true, and one epsilon below (score 0.89) yields false. -/
theorem claim_C9_amended :
    (∀ (vm : List MatchEntry) (el : CulturalElements) (text : List Char) (θ : ℚ),
      (determine_kambaramayanam_content vm el text θ).1 = true ↔
        θ ≤ (determine_kambaramayanam_content vm el text θ).2) ∧
    (determine_kambaramayanam_content ent09 noElems [] (1 / 2)).2 = 1 / 2 ∧
    (determine_kambaramayanam_content ent09 noElems [] (1 / 2)).1 = true ∧
    (determine_kambaramayanam_content ent089 noElems [] (1 / 2)).2 = 89 / 180 ∧
    (determine_kambaramayanam_content ent089 noElems [] (1 / 2)).1 = false := by
  have h09 : (determine_kambaramayanam_content ent09 noElems [] (1 / 2)).2 = 1 / 2 := by
    rw [determine_confidence_formula]
    have hbest : bestMatchScore ent09 = 9 / 10 := rfl
    rw [hbest]
    norm_num [ent09, noElems, min_def]
  have h089 : (determine_kambaramayanam_content ent089 noElems [] (1 / 2)).2 = 89 / 180 := by
    rw [determine_confidence_formula]
    have hbest : bestMatchScore ent089 = 89 / 100 := rfl
    rw [hbest]
    norm_num [ent089, noElems, min_def]
  refine ⟨?_, h09, ?_, h089, ?_⟩
  · intro vm el text θ
    rw [determine_decision]
    exact decide_eq_true_iff
  · rw [determine_decision, h09]
    exact decide_eq_true (by norm_num)
  · rw [determine_decision, h089]
    exact decide_eq_false (by norm_num)

/-- With no verse matches the blended confidence is at most 19/80, and at
most 11/50 when the literary factor is present. -/
lemma empty_matches_confidence_bound (el : CulturalElements) (text : List Char) (θ : ℚ) :
    (determine_kambaramayanam_content [] el text θ).2 ≤ 19 / 80 ∧
    (¬el.literary_significance.isEmpty = true →
      (determine_kambaramayanam_content [] el text θ).2 ≤ 11 / 50) := by
  have hform := determine_confidence_formula [] el text θ
  simp only [List.isEmpty_nil, if_true] at hform
  have hc1 : min ((el.characters.length : ℚ) * (1 / 10)) (3 / 10) ≤ 3 / 10 :=
    min_le_right _ _
  have hc1n : 0 ≤ min ((el.characters.length : ℚ) * (1 / 10)) (3 / 10) :=
    le_min (by positivity) (by norm_num)
  have hc2 : min ((el.keywords.length : ℚ) * (1 / 20)) (1 / 5) ≤ 1 / 5 :=
    min_le_right _ _
  have hc2n : 0 ≤ min ((el.keywords.length : ℚ) * (1 / 20)) (1 / 5) :=
    le_min (by positivity) (by norm_num)
  have hc3 : min ((el.literary_significance.length : ℚ) * (1 / 20)) (3 / 20) ≤ 3 / 20 :=
    min_le_right _ _
  have hc3n : 0 ≤ min ((el.literary_significance.length : ℚ) * (1 / 20)) (3 / 20) :=
    le_min (by positivity) (by norm_num)
  have hc4 : min ((text.length : ℚ) / 200) (1 / 10) ≤ 1 / 10 := min_le_right _ _
  have hc4n : 0 ≤ min ((text.length : ℚ) / 200) (1 / 10) :=
    le_min (by positivity) (by norm_num)
  by_cases hlit : el.literary_significance.isEmpty = true
  · rw [if_pos hlit, if_pos hlit] at hform
    constructor
    · rw [hform, div_le_iff₀ (by norm_num)]
      linarith
    · intro hcontra
      exact absurd hlit hcontra
  · rw [if_neg hlit, if_neg hlit] at hform
    have hboth : (determine_kambaramayanam_content [] el text θ).2 ≤ 11 / 50 := by
      rw [hform, div_le_iff₀ (by norm_num)]
      linarith
    exact ⟨le_trans hboth (by norm_num), fun _ => hboth⟩

/-- The concrete Tamil text for the C10 counterexample: four character
names, no literary markers. -/
def kambaT : List Char := "இராமன் சீதை அனுமன் ராவணன்".data

/-- C10, counterexample: with an empty match list, a text naming four
characters (which are also four famous keywords) and long enough for the
full length bonus, but with no literary markers, reaches confidence
19/80 = 0.2375 > 0.22: without the literary factor the denominator is
only 0.4, so the claimed 0.22 bound fails. -/
theorem claim_C10_counterexample :
    (determine_kambaramayanam_content [] (identify_cultural_elements kambaT) kambaT
        (1 / 2)).2 = 19 / 80 ∧
    ¬((19 : ℚ) / 80 ≤ 11 / 50) := by
  have hch : (identify_cultural_elements kambaT).characters.length = 4 := by decide
  have hkw : (identify_cultural_elements kambaT).keywords.length = 4 := by decide
  have hlit : (identify_cultural_elements kambaT).literary_significance.isEmpty = true := by
    decide
  have hlen : kambaT.length = 25 := by decide
  refine ⟨?_, by norm_num⟩
  rw [determine_confidence_formula, hch, hkw, hlen]
  simp only [hlit, List.isEmpty_nil, if_true]
  norm_num [min_def]

/-- C10, amended: with an empty verse-match list the classifier's
confidence never exceeds 19/80 = 0.2375 (the 0.22 bound of the claim
holds only when the literary factor is present); in particular it stays
below the default 0.5 threshold, so the classifier never reports a known
work without at least one verse match. -/
theorem claim_C10_amended (text : List Char) :
    (determine_kambaramayanam_content [] (identify_cultural_elements text) text
        (1 / 2)).2 ≤ 19 / 80 ∧
    (¬(identify_cultural_elements text).literary_significance.isEmpty = true →
      (determine_kambaramayanam_content [] (identify_cultural_elements text) text
          (1 / 2)).2 ≤ 11 / 50) ∧
    (determine_kambaramayanam_content [] (identify_cultural_elements text) text
        (1 / 2)).1 = false := by
  have hb := empty_matches_confidence_bound (identify_cultural_elements text) text (1 / 2)
  refine ⟨hb.1, hb.2, ?_⟩
  rw [determine_decision]
  apply decide_eq_false
  intro hcontra
  have := le_trans hcontra hb.1
  norm_num at this

/-- Witness for C10 at a text with literary markers (two newlines). -/
theorem claim_C10_witness :
    (determine_kambaramayanam_content []
        (identify_cultural_elements ['\n', 'a', '\n']) ['\n', 'a', '\n'] (1 / 2)).2 ≤
      11 / 50 ∧
    (determine_kambaramayanam_content []
        (identify_cultural_elements ['\n', 'a', '\n']) ['\n', 'a', '\n'] (1 / 2)).1 =
      false := by
  have h := claim_C10_amended ['\n', 'a', '\n']
  exact ⟨h.2.1 (by decide), h.2.2⟩

/-- C5, counterexample: on a collaborator timeout the analysis call still
returns (no exception), keeps the heuristic result and leaves
`enhanced_analysis = false`, but it does not record the failure reason:
`gemini_error` stays `none`, because `_get_gemini_semantic_sentiment`
swallows the failure and returns the empty dictionary. -/
theorem claim_C5_counterexample :
    ((analyze_semantic_sentiment true true .timeout .jsonError "ts" 0 []
        "வணக்கம்").1).gemini_error = none ∧
    ((analyze_semantic_sentiment true true .timeout .jsonError "ts" 0 []
        "வணக்கம்").1).enhanced_analysis = false := by
  constructor <;> rfl

/-- C5, amended: whenever the collaborator request fails (timeout,
non-success status, request exception, missing candidates), the analysis
does not raise, the heuristic semantic and sentiment results are
returned unchanged and `enhanced_analysis` is `false`; however no
failure reason is recorded: `gemini_error` remains `none` on every such
path (the `except` branch that would set it is unreachable). -/
theorem claim_C5_amended (g avail : Bool) (mo : MakeRequestOutcome) (po : ParseOutcome)
    (now : String) (dur : Nat) (text : String)
    (h : make_request avail mo = none) :
    ((analyze_semantic_sentiment g avail mo po now dur [] text).1).semantic_analysis =
        basic_semantic_analysis text.data ∧
    ((analyze_semantic_sentiment g avail mo po now dur [] text).1).sentiment_analysis =
        basic_sentiment_analysis text.data ∧
    ((analyze_semantic_sentiment g avail mo po now dur [] text).1).enhanced_analysis =
        false ∧
    ((analyze_semantic_sentiment g avail mo po now dur [] text).1).gemini_error = none := by
  have hhelper : get_gemini_semantic_sentiment avail mo po = none := by
    cases avail with
    | false => rfl
    | true =>
      simp [get_gemini_semantic_sentiment, get_conversational_meaning,
        call_gemini_api, h]
  simp [analyze_semantic_sentiment, dictGet, hhelper]

/-- Witness for C5 at a concrete failing outcome (a 503 status). -/
theorem claim_C5_witness :
    ((analyze_semantic_sentiment true true (.httpStatus 503 "overloaded") .jsonError
        "t2" 5 [] "அறம்").1).enhanced_analysis = false ∧
    ((analyze_semantic_sentiment true true (.httpStatus 503 "overloaded") .jsonError
        "t2" 5 [] "அறம்").1).gemini_error = none := by
  have h := claim_C5_amended true true (.httpStatus 503 "overloaded") .jsonError
    "t2" 5 "அறம்" rfl
  exact ⟨h.2.2.1, h.2.2.2⟩

/-- C7, amended: two calls with the same input text return the same
analysis content except for two fields: the second (cached) result has
`cached = true` and its `processing_time` is overwritten with the
placeholder string `"0.1s (cached)"`; everything else, including the
first call's timestamp, is returned unchanged. -/
theorem claim_C7_amended (g avail : Bool) (mo mo2 : MakeRequestOutcome)
    (po po2 : ParseOutcome) (now now2 : String) (dur dur2 : Nat) (text : String) :
    ((analyze_semantic_sentiment g avail mo po now dur [] text).1).cached = false ∧
    (analyze_semantic_sentiment g avail mo2 po2 now2 dur2
        (analyze_semantic_sentiment g avail mo po now dur [] text).2 text).1 =
      { (analyze_semantic_sentiment g avail mo po now dur [] text).1 with
          cached := true, processing_time := "0.1s (cached)" } := by
  constructor
  · rfl
  · simp [analyze_semantic_sentiment, dictGet, dictSet, clean_cache, get_cache_key]

/-- C7, counterexample: with identical timings the two calls still differ
beyond the `cached` flag: the cached call's `processing_time` is the
placeholder, while the first call's is the measured duration string. -/
theorem claim_C7_counterexample :
    (analyze_semantic_sentiment false false .timeout .jsonError "ts" 0
        (analyze_semantic_sentiment false false .timeout .jsonError "ts" 0 []
          "வணக்கம்").2 "வணக்கம்").1 ≠
      { (analyze_semantic_sentiment false false .timeout .jsonError "ts" 0 []
          "வணக்கம்").1 with cached := true } ∧
    ((analyze_semantic_sentiment false false .timeout .jsonError "ts" 0
        (analyze_semantic_sentiment false false .timeout .jsonError "ts" 0 []
          "வணக்கம்").2 "வணக்கம்").1).processing_time = "0.1s (cached)" ∧
    ((analyze_semantic_sentiment false false .timeout .jsonError "ts" 0 []
        "வணக்கம்").1).processing_time = "0.00s" := by
  refine ⟨?_, by decide, by decide⟩
  intro hEq
  have hpt := congrArg AnalysisResult.processing_time hEq
  revert hpt
  decide

/-- The concrete neutral-only input for the C8 counterexample. -/
def okayL : List Char := ['o', 'k', 'a', 'y']

/-- C8, counterexample: the input `okay` has tied positive and negative
scores (both 0) and one neutral hit, and the result is neutral with
confidence 1 (= neutral_score/total), not the claimed 0.5. -/
theorem claim_C8_counterexample :
    (basic_sentiment_analysis okayL).positive_indicators =
        (basic_sentiment_analysis okayL).negative_indicators ∧
    (basic_sentiment_analysis okayL).overall_sentiment = "neutral" ∧
    (basic_sentiment_analysis okayL).confidence = 1 ∧
    (1 : ℚ) ≠ 1 / 2 := by
  have hp : countHits positive_indicators (okayL.map asciiLower) = 0 := by decide
  have hn : countHits negative_indicators (okayL.map asciiLower) = 0 := by decide
  have hu : countHits neutral_indicators (okayL.map asciiLower) = 1 := by decide
  have hi : countHits intensifiers (okayL.map asciiLower) = 0 := by decide
  refine ⟨?_, ?_, ?_, by norm_num⟩
  · simp only [basic_sentiment_analysis]
    rw [hp, hn]
  · simp only [basic_sentiment_analysis, sentimentLabelConfidence]
    rw [hp, hn, hu]
    norm_num
  · simp only [basic_sentiment_analysis, sentimentLabelConfidence]
    rw [hp, hn, hu, hi]
    norm_num [min_def]

/-- C8, amended: the class scores are the counts of indicator-list
entries occurring in the lowercased text; a strict winner gets
confidence `(winner/total) * (1 + 0.3*intensifiers)` clipped to 1; zero
total hits give neutral with 0.5; a positive/negative tie gives neutral
with `neutral/total` when there are neutral hits (no intensifier boost,
and not 0.5 in general), and 0.5 only when there are none. -/
lemma sentimentLabelConfidence_cases (p n nu : Nat) (mult : ℚ) :
    (p + n + nu = 0 → sentimentLabelConfidence p n nu mult = ("neutral", 1 / 2)) ∧
    (n < p → sentimentLabelConfidence p n nu mult =
      ("positive", ((p : ℚ) / ((p + n + nu : Nat) : ℚ)) * mult)) ∧
    (p < n → sentimentLabelConfidence p n nu mult =
      ("negative", ((n : ℚ) / ((p + n + nu : Nat) : ℚ)) * mult)) ∧
    (p = n ∧ 0 < nu → sentimentLabelConfidence p n nu mult =
      ("neutral", (nu : ℚ) / ((p + n + nu : Nat) : ℚ))) ∧
    (p = n ∧ nu = 0 → sentimentLabelConfidence p n nu mult = ("neutral", 1 / 2)) := by
  unfold sentimentLabelConfidence
  refine ⟨?_, ?_, ?_, ?_, ?_⟩
  · intro h0
    rw [if_pos h0]
  · intro hwin
    have h0 : ¬(p + n + nu = 0) := by omega
    rw [if_neg h0, if_pos hwin]
  · intro hwin
    have h0 : ¬(p + n + nu = 0) := by omega
    have hnp : ¬(n < p) := by omega
    rw [if_neg h0, if_neg hnp, if_pos hwin]
  · rintro ⟨heq, hnu⟩
    have h0 : ¬(p + n + nu = 0) := by omega
    have hnp : ¬(n < p) := by omega
    have hpn : ¬(p < n) := by omega
    rw [if_neg h0, if_neg hnp, if_neg hpn, if_pos hnu]
  · rintro ⟨heq, hnu⟩
    by_cases h0 : p + n + nu = 0
    · rw [if_pos h0]
    · have hnp : ¬(n < p) := by omega
      have hpn : ¬(p < n) := by omega
      have hnu2 : ¬(0 < nu) := by omega
      rw [if_neg h0, if_neg hnp, if_neg hpn, if_neg hnu2]

/-- C8, amended: the class scores are the counts of indicator-list
entries occurring in the lowercased text; a strict winner gets
confidence `(winner/total) * (1 + 0.3*intensifiers)` clipped to 1; zero
total hits give neutral with 0.5; a positive/negative tie gives neutral
with `neutral/total` when there are neutral hits (no intensifier boost,
and not 0.5 in general), and 0.5 only when there are none. -/
theorem claim_C8_amended (text : List Char) (p n nu ic : Nat) (r : SentimentAnalysis)
    (hp : p = countHits positive_indicators (text.map asciiLower))
    (hn : n = countHits negative_indicators (text.map asciiLower))
    (hnu : nu = countHits neutral_indicators (text.map asciiLower))
    (hic : ic = countHits intensifiers (text.map asciiLower))
    (hr : r = basic_sentiment_analysis text) :
    (r.positive_indicators = p ∧ r.negative_indicators = n ∧
      r.neutral_indicators = nu ∧ r.intensifier_count = ic) ∧
    (p + n + nu = 0 → r.overall_sentiment = "neutral" ∧ r.confidence = 1 / 2) ∧
    (n < p → r.overall_sentiment = "positive" ∧
      r.confidence =
        min 1 (((p : ℚ) / ((p + n + nu : Nat) : ℚ)) * (1 + (ic : ℚ) * (3 / 10)))) ∧
    (p < n → r.overall_sentiment = "negative" ∧
      r.confidence =
        min 1 (((n : ℚ) / ((p + n + nu : Nat) : ℚ)) * (1 + (ic : ℚ) * (3 / 10)))) ∧
    (p = n ∧ 0 < nu → r.overall_sentiment = "neutral" ∧
      r.confidence = min 1 ((nu : ℚ) / ((p + n + nu : Nat) : ℚ))) ∧
    (p = n ∧ nu = 0 → r.overall_sentiment = "neutral" ∧ r.confidence = 1 / 2) := by
  have hca := sentimentLabelConfidence_cases p n nu (1 + (ic : ℚ) * (3 / 10))
  have hsent : r.overall_sentiment =
      (sentimentLabelConfidence p n nu (1 + (ic : ℚ) * (3 / 10))).1 := by
    rw [hr, hp, hn, hnu, hic]
    rfl
  have hconf : r.confidence =
      min 1 (sentimentLabelConfidence p n nu (1 + (ic : ℚ) * (3 / 10))).2 := by
    rw [hr, hp, hn, hnu, hic]
    rfl
  have hfields : r.positive_indicators = p ∧ r.negative_indicators = n ∧
      r.neutral_indicators = nu ∧ r.intensifier_count = ic := by
    rw [hr, hp, hn, hnu, hic]
    exact ⟨rfl, rfl, rfl, rfl⟩
  refine ⟨hfields, ?_, ?_, ?_, ?_, ?_⟩
  · intro h0
    constructor
    · rw [hsent, hca.1 h0]
    · rw [hconf, hca.1 h0]
      norm_num [min_def]
  · intro hwin
    constructor
    · rw [hsent, hca.2.1 hwin]
    · rw [hconf, hca.2.1 hwin]
  · intro hwin
    constructor
    · rw [hsent, hca.2.2.1 hwin]
    · rw [hconf, hca.2.2.1 hwin]
  · intro htie
    constructor
    · rw [hsent, hca.2.2.2.1 htie]
    · rw [hconf, hca.2.2.2.1 htie]
  · intro htie
    constructor
    · rw [hsent, hca.2.2.2.2 htie]
    · rw [hconf, hca.2.2.2.2 htie]
      norm_num [min_def]

/-- Witness for C8 at a concrete indicator-free input. -/
theorem claim_C8_witness :
    (basic_sentiment_analysis ['x', 'y', 'z']).overall_sentiment = "neutral" ∧
    (basic_sentiment_analysis ['x', 'y', 'z']).confidence = 1 / 2 :=
  (claim_C8_amended ['x', 'y', 'z'] _ _ _ _ _ rfl rfl rfl rfl rfl).2.1 (by decide)

/-- Witness for C6 at a concrete cache. -/
theorem claim_C6_witness :
    (clean_cache (dictSet [("a", (1 : Nat)), ("b", 2)] "c" 3)).length ≤ 100 ∧
    dictSet [("a", (1 : Nat)), ("b", 2)] "c" 3 = [("a", 1), ("b", 2), ("c", 3)] := by
  refine ⟨(claim_C6_cache_bound [("a", 1), ("b", 2)] "c" 3 (by decide)).1,
    (claim_C6_cache_bound [("a", 1), ("b", 2)] "c" 3 (by decide)).2.1 (by decide)⟩

end TamilAnalyzer
